import Mathlib

/-!
Shallow embedding of the ADsum audio capture/recording pipeline
(`src/adsum`), covering:

* `RecordingControl` (src/adsum/core/pipeline/orchestrator.py)
* the orchestrator's mixdown input selection (orchestrator.py, `record`)
* `create_capture`'s FFmpeg-backend resolution flow (src/adsum/core/audio/factory.py)
* `FFmpegCapture` lifecycle and `read` (src/adsum/core/audio/ffmpeg_backend.py)
* `AudioFileWriter` (src/adsum/core/audio/writers.py) and `read_wave` /
  `mix_audio_files` / `ensure_mono` / `_resample_array` (src/adsum/utils/audio.py)
* `parse_ffmpeg_device` (src/adsum/core/audio/ffmpeg_backend.py)

Machine floats in the numeric kernels are modelled as exact rationals; the
properties at stake are structural (shapes, counts, selection, control flow),
not rounding error of binary floating point.
-/

namespace ADsum

/-! ## RecordingControl (orchestrator.py lines 43-76)

The control object holds two thread-safe events: `_stop` (initially clear)
and `_resume` (initially set).  We model the pair of flags directly; the
`Event.wait` call has no effect on the flags and is not part of the state.
-/

structure RecordingControl where
  stop : Bool
  resume : Bool
deriving DecidableEq, Repr

namespace RecordingControl

/-- `RecordingControl.__init__`: `_stop` clear, `_resume` set. -/
def init : RecordingControl := ⟨false, true⟩

/-- `request_stop`: sets `_stop` and sets `_resume` (waking a paused wait). -/
def request_stop (c : RecordingControl) : RecordingControl :=
  { c with stop := true, resume := true }

/-- `request_pause`: clears `_resume` only when `_stop` is not set. -/
def request_pause (c : RecordingControl) : RecordingControl :=
  if c.stop then c else { c with resume := false }

/-- `request_resume`: sets `_resume` only when `_stop` is not set. -/
def request_resume (c : RecordingControl) : RecordingControl :=
  if c.stop then c else { c with resume := true }

/-- `should_stop` property. -/
def should_stop (c : RecordingControl) : Bool := c.stop

/-- `is_paused` property: `not _resume.is_set() and not _stop.is_set()`. -/
def is_paused (c : RecordingControl) : Bool := !c.resume && !c.stop

/-- `is_recording` property: `_resume.is_set() and not _stop.is_set()`. -/
def is_recording (c : RecordingControl) : Bool := c.resume && !c.stop

/-- One externally callable control operation. -/
inductive Action
  | pause
  | resume
  | stopReq
deriving DecidableEq, Repr

/-- Apply one control call. -/
def applyAction (c : RecordingControl) : Action → RecordingControl
  | .pause => c.request_pause
  | .resume => c.request_resume
  | .stopReq => c.request_stop

/-- Apply a sequence of control calls, first element first. -/
def applyAll (c : RecordingControl) : List Action → RecordingControl
  | [] => c
  | a :: rest => (c.applyAction a).applyAll rest

end RecordingControl

/-! ## Orchestrator mixdown input selection (orchestrator.py lines 117-189)

After the capture loop, `record` holds `capture_paths` — one file path per
requested channel, created unconditionally for every channel before the loop
— and each channel writer's `frames_written` count.  The mixdown block is:

    if request.mix_down and len(capture_paths) >= 1:
        mix_audio_files(list(capture_paths.values()), mix_path)

There is no per-channel metrics object in this module and no filtering of
zero-frame channels: every channel's file is passed to the mixer.  We model
the per-channel outcome of the loop as name + frames written, and the
mixdown selection exactly as the code computes it.
-/

structure ChannelOutcome where
  name : String
  framesWritten : Nat
deriving DecidableEq, Repr

/-- The list of file inputs the orchestrator passes to `mix_audio_files`
(identified by channel name), and whether the mixer is invoked at all:
`request.mix_down and len(capture_paths) >= 1`, over all channels. -/
def mixdownInputs (mixDown : Bool) (channels : List ChannelOutcome) : List String :=
  if mixDown && decide (1 ≤ channels.length) then channels.map (·.name) else []

/-! ## create_capture, FFmpeg backend branch (factory.py lines 108-189)

`create_capture` with `backend == "ffmpeg"` resolves the binary with
`_resolve_binary(settings.ffmpeg_binary)`.  When resolution fails it logs
"attempting sounddevice fallback", builds a sounddevice capture, and returns
it when construction succeeds; only when the fallback is unavailable does it
raise `CaptureConfigurationError(str(FFmpegBinaryNotFoundError(...)))`.
We model the outcome of this resolution step.
-/

inductive CaptureCreation
  | ffmpegCapture (binary : String)
  | sounddeviceCapture
  | configurationError (msg : String)
deriving DecidableEq, Repr

/-- factory.py lines 152-189: outcome of the FFmpeg branch of `create_capture`
once the device spec has parsed, as a function of whether `_resolve_binary`
found a binary and whether a sounddevice capture can be constructed. -/
def create_capture_ffmpeg (resolvedBinary : Option String)
    (sounddeviceAvailable : Bool) : CaptureCreation :=
  match resolvedBinary with
  | some b => .ffmpegCapture b
  | none =>
    if sounddeviceAvailable then .sounddeviceCapture
    else .configurationError "FFmpeg binary not found"

/-! ## FFmpegCapture lifecycle and read (ffmpeg_backend.py lines 266-473)

State fields mirror the instance attributes of `FFmpegCapture` that the
lifecycle methods touch: `_process` (modelled as a spawned flag plus a
liveness flag for the subprocess), `_stop_event`, the two reader threads,
the hand-off `_queue` and the byte `_buffer`.  Two ghost counters record
how many times `close` actually closed the subprocess pipes and joined the
threads, so that "no duplicate resource release" is an observable fact of
the model.  Every exception-prone call in `stop`/`close` is wrapped in
`contextlib.suppress(Exception)` in the source, so `stop` and `close` are
total functions here; only `start` can fail (unresolvable binary). -/

structure CaptureState where
  processSpawned : Bool
  processRunning : Bool
  stopEventSet : Bool
  readerThread : Bool
  stderrThread : Bool
  queue : List (List (List ℚ))
  bufferBytes : Nat
  pipesClosedCount : Nat
  threadsJoinedCount : Nat
deriving DecidableEq, Repr

namespace CaptureState

/-- A freshly constructed `FFmpegCapture`: no process, stop event clear,
no threads, empty queue and buffer. -/
def mk0 : CaptureState := ⟨false, false, false, false, false, [], 0, 0, 0⟩

/-- `start` (lines 292-332): returns unchanged when `_process is not None`;
fails with `CaptureError` when the binary cannot be resolved; otherwise
spawns the process, clears the stop event and starts both reader threads. -/
def start (resolvedBinary : Option String) (s : CaptureState) :
    Except String CaptureState :=
  if s.processSpawned then .ok s
  else
    match resolvedBinary with
    | none => .error "FFmpeg binary was not found"
    | some _ =>
      .ok { s with
        processSpawned := true
        processRunning := true
        stopEventSet := false
        readerThread := true
        stderrThread := true }

/-- `stop` (lines 334-348): returns immediately when `_process is None`;
otherwise sets the stop event and terminates (then kills) the process.
`_process` itself is not cleared by `stop`. -/
def stop (s : CaptureState) : CaptureState :=
  if s.processSpawned then
    { s with stopEventSet := true, processRunning := false }
  else s

/-- `close` (lines 350-370): clears `_process`, sets the stop event, closes
both pipes when a process was present, joins and clears both reader
threads when present, drains the queue and clears the buffer. -/
def close (s : CaptureState) : CaptureState :=
  let pipeCloses := if s.processSpawned then 1 else 0
  let joins := (if s.readerThread then 1 else 0) + (if s.stderrThread then 1 else 0)
  { s with
    processSpawned := false
    processRunning := false
    stopEventSet := true
    readerThread := false
    stderrThread := false
    queue := []
    bufferBytes := 0
    pipesClosedCount := s.pipesClosedCount + pipeCloses
    threadsJoinedCount := s.threadsJoinedCount + joins }

/-- `read` (lines 372-378): with `timeout is None or timeout <= 0` the queue
is polled with `get_nowait`; with a positive timeout, `get(timeout=...)`
may block up to the deadline, at which point the queue contents decide the
outcome.  In both branches a raised `queue.Empty` is caught and mapped to
`None`; the value drawn is the front of the hand-off queue. -/
def read (timeout : Option ℚ) (s : CaptureState) :
    Option (List (List ℚ)) × CaptureState :=
  match timeout, s.queue with
  | _, [] => (none, s)
  | _, b :: rest => (some b, { s with queue := rest })

end CaptureState

/-! ## Wave files, AudioFileWriter, read_wave / write_wave / ensure_mono /
resample_array / mix_audio_files

Samples are exact rationals standing for the float values of the source;
int16 PCM samples are integers.  `numpy` 2-D arrays are rectangular, so an
array is a column count plus a row list (`shape = (rows.length, width)`);
rectangularity is a hypothesis where a computation needs it.  The sub-word
of `numpy` used here: `astype(np.int16)` truncates a float toward zero,
`np.clip` clamps, `reshape(-1, c)` regroups a whole-frame payload into rows
of `c` (it raises on a non-divisible payload, which no writer of this
code base produces; theorems carry the divisibility hypothesis). -/

/-- A 2-D float array: `width = shape[1]`. -/
structure Array2 where
  width : Nat
  rows : List (List ℚ)
deriving DecidableEq, Repr

/-- An uncompressed PCM wave file: 16-bit interleaved samples. -/
structure WaveFile where
  channels : Nat
  sample_rate : Nat
  samples : List ℤ
deriving DecidableEq, Repr

/-- `np.clip(x, -1.0, 1.0)` on one sample. -/
def clipSample (q : ℚ) : ℚ := max (-1) (min 1 q)

/-- Float-to-int conversion (`astype(np.int16)`): truncation toward zero.
All values fed to it are clipped to `[-32767, 32767]` first, so no
wrap-around occurs. -/
def truncToInt (q : ℚ) : ℤ := if 0 ≤ q then ⌊q⌋ else -⌊-q⌋

/-- One sample of `(np.clip(data, -1.0, 1.0) * 32767.0).astype(np.int16)`. -/
def toInt16 (q : ℚ) : ℤ := truncToInt (clipSample q * 32767)

/-- `reshape(-1, c)`: regroup a flat list into rows of `c`. -/
def chunkExact : Nat → List ℚ → List (List ℚ)
  | _, [] => []
  | 0, _ :: _ => []
  | c + 1, x :: xs => ((x :: xs).take (c + 1)) :: chunkExact (c + 1) ((x :: xs).drop (c + 1))
termination_by _ l => l.length
decreasing_by simp; omega

/-- `read_wave` (utils/audio.py lines 13-24): int16 samples as floats divided
by `32767.0`, regrouped into `channels` columns when `channels > 1`, one
column otherwise. -/
def read_wave (f : WaveFile) : Array2 × Nat :=
  let width := if f.channels > 1 then f.channels else 1
  (⟨width, chunkExact width (f.samples.map (fun z : ℤ => (z : ℚ) / 32767))⟩,
    f.sample_rate)

/-- `write_wave` (utils/audio.py lines 27-36): clip to `[-1, 1]`, scale by
`32767.0`, truncate to int16; the file's channel count is the array's
column count. -/
def write_wave (data : Array2) (sample_rate : Nat) : WaveFile :=
  ⟨data.width, sample_rate, data.rows.flatMap (fun r => r.map toInt16)⟩

/-- `ensure_mono` (utils/audio.py lines 39-42): a one-column array is
returned as is; otherwise rows are averaged (`mean(axis=1)`, divisor =
`shape[1]`). -/
def ensure_mono (a : Array2) : Array2 :=
  if a.width = 1 then a
  else ⟨1, a.rows.map (fun r => [r.sum / (a.width : ℚ)])⟩

/-- Python 3 `round`: round half to even. -/
def roundHalfEven (q : ℚ) : ℤ :=
  let f := ⌊q⌋
  let r := q - (f : ℚ)
  if r < 1/2 then f
  else if 1/2 < r then f + 1
  else if 2 ∣ f then f else f + 1

/-- `np.interp(p, arange(L), mono)` for a uniformly spaced integer grid:
clamped at the ends, linear between consecutive samples. -/
def interpUniform (mono : List ℚ) (p : ℚ) : ℚ :=
  if p ≤ 0 then mono.headD 0
  else if (mono.length : ℚ) - 1 ≤ p then mono.getLastD 0
  else
    let k := (⌊p⌋).toNat
    mono.getD k 0 + (p - (k : ℚ)) * (mono.getD (k + 1) 0 - mono.getD k 0)

/-- The resampled length `max(int(round(length * target_sr / sr)), 1)`. -/
def targetLengthOf (length target_sr sr : Nat) : Nat :=
  max (roundHalfEven (((length * target_sr : Nat) : ℚ) / (sr : ℚ))).toNat 1

/-- `_resample_array` (utils/audio.py lines 45-58): pass through when the
rate already matches; a zero-length input resamples to zero length; a
one-sample target yields the first source sample; otherwise interpolate
the first column at `target_length` uniformly spaced positions spanning
`[0, length - 1]`. -/
def resample_array (array : Array2) (sr target_sr : Nat) : Array2 :=
  if sr = target_sr then array
  else
    let mono := array.rows.map (fun r => r.headD 0)
    let length := mono.length
    if length = 0 then ⟨1, []⟩
    else
      let target_length := targetLengthOf length target_sr sr
      if target_length = 1 then ⟨1, [[mono.headD 0]]⟩
      else
        ⟨1, (List.range target_length).map (fun i : ℕ =>
          [interpUniform mono
            ((((length : ℚ) - 1) * (i : ℚ)) / ((target_length : ℚ) - 1))])⟩

/-- Python `max(...)` over a nonempty list (0 for the empty list, which the
callers exclude). -/
def listMax (xs : List Nat) : Nat :=
  match xs with
  | [] => 0
  | h :: t => t.foldl max h

/-- Python `min(...)` over a nonempty list (0 for the empty list, which the
callers exclude). -/
def listMin (xs : List Nat) : Nat :=
  match xs with
  | [] => 0
  | h :: t => t.foldl min h

/-- `mix_audio_files` (utils/audio.py lines 61-77): read each file, downmix
to mono, fail on an empty input list, resample everything to the maximum
input rate, truncate to the shortest resampled length, average pointwise
(`np.mean(axis=0)`, divisor = number of inputs) and write one mono file at
the target rate. -/
def mix_audio_files (files : List WaveFile) : Except String WaveFile :=
  let data_entries : List (Array2 × Nat) :=
    files.map (fun path =>
      let entry := read_wave path
      (ensure_mono entry.1, entry.2))
  if data_entries.isEmpty then .error "No audio files supplied for mixing"
  else
    let target_sample_rate := listMax (data_entries.map (·.2))
    let resampled_arrays :=
      data_entries.map (fun e => resample_array e.1 e.2 target_sample_rate)
    let min_length := listMin (resampled_arrays.map (fun a => a.rows.length))
    let stacked :=
      resampled_arrays.map (fun a => (a.rows.take min_length).map (fun r => r.headD 0))
    let mixed := (List.range min_length).map (fun i =>
      (stacked.map (fun col => col.getD i 0)).sum / (stacked.length : ℚ))
    .ok (write_wave ⟨1, mixed.map (fun q => [q])⟩ target_sample_rate)

/-! ### AudioFileWriter (writers.py lines 12-57) -/

/-- A frame block handed to the writer: a 2-D float array (`frames × width`).
A 1-D chunk is reshaped to one column by `write` before any check, so every
block is 2-D here. -/
structure FrameBlock where
  width : Nat
  rows : List (List ℚ)
deriving DecidableEq, Repr

/-- Rectangularity of a frame block (`numpy` arrays are rectangular by
construction). -/
def FrameBlock.wellFormed (b : FrameBlock) : Bool :=
  b.rows.all (fun r => r.length = b.width)

/-- Writer state: configuration plus the int16 samples written so far and
the `_frames_written` counter. -/
structure AudioFileWriter where
  sample_rate : Nat
  channels : Nat
  fileSamples : List ℤ
  frames_written : Nat
deriving DecidableEq, Repr

namespace AudioFileWriter

/-- `__init__`: open the file with the configured channel count and rate. -/
def openWriter (sample_rate channels : Nat) : AudioFileWriter :=
  ⟨sample_rate, channels, [], 0⟩

/-- `write` (writers.py lines 26-37): a block whose column count mismatches
the writer is accepted only in the 1-column-to-2-channel case (`np.repeat`
across columns); otherwise `ValueError` and nothing is written.  Accepted
data is clipped to `[-1, 1]`, scaled to int16 and appended;
`_frames_written` grows by the block's row count. -/
def write (w : AudioFileWriter) (b : FrameBlock) : Except String AudioFileWriter :=
  let adapted : Option (List (List ℚ)) :=
    if b.width = w.channels then some b.rows
    else if b.width = 1 ∧ w.channels = 2 then
      some (b.rows.map (fun r => r.flatMap (fun x => [x, x])))
    else none
  match adapted with
  | none => .error "Channel mismatch when writing audio"
  | some rows =>
    .ok { w with
      fileSamples := w.fileSamples ++ rows.flatMap (fun r => r.map toInt16)
      frames_written := w.frames_written + rows.length }

/-- Fold `write` over a sequence of blocks, stopping at the first error. -/
def writeAll (w : AudioFileWriter) : List FrameBlock → Except String AudioFileWriter
  | [] => .ok w
  | b :: rest =>
    match w.write b with
    | .error e => .error e
    | .ok w' => w'.writeAll rest

/-- `close` flushes the wave container: the on-disk file carries the
writer's channel count, rate and samples. -/
def toWaveFile (w : AudioFileWriter) : WaveFile :=
  ⟨w.channels, w.sample_rate, w.fileSamples⟩

end AudioFileWriter

/-! ### Spec-side mixing combinators (for the refinement statement of the
mixer claim; written from the specification's wording, to be compared with
`mix_audio_files` above). -/

/-- Spec side: downmix one file to mono by averaging each frame's
channels. -/
def monoOfSpec (f : WaveFile) : List ℚ :=
  (read_wave f).1.rows.map (fun r => r.sum / (r.length : ℚ))

/-- Spec side: linear-interpolation resampling over uniformly spaced
sample positions; a rate-matching input passes through, a zero-length
input resamples to zero length, a one-sample target yields the first
source sample. -/
def linearResampleSpec (mono : List ℚ) (sr target_sr : Nat) : List ℚ :=
  if sr = target_sr then mono
  else if mono.length = 0 then []
  else if targetLengthOf mono.length target_sr sr = 1 then [mono.headD 0]
  else
    (List.range (targetLengthOf mono.length target_sr sr)).map (fun i : ℕ =>
      interpUniform mono
        ((((mono.length : ℚ) - 1) * (i : ℚ))
          / ((targetLengthOf mono.length target_sr sr : ℚ) - 1)))

/-- Spec side: the maximum sample rate over all inputs. -/
def maxRateSpec (files : List WaveFile) : Nat :=
  listMax (files.map (·.sample_rate))

/-- Spec side: every input downmixed and resampled to the target rate. -/
def resampledMonosSpec (files : List WaveFile) : List (List ℚ) :=
  files.map (fun f =>
    linearResampleSpec (monoOfSpec f) f.sample_rate (maxRateSpec files))

/-- Spec side: truncate all resampled signals to the shortest length and
average pointwise. -/
def mixedSignalSpec (files : List WaveFile) : List ℚ :=
  let rs := resampledMonosSpec files
  let m := listMin (rs.map List.length)
  (List.range m).map (fun i =>
    (rs.map (fun a => a.getD i 0)).sum / (rs.length : ℚ))

/-! ## parse_ffmpeg_device (ffmpeg_backend.py lines 101-263)

The parser is embedded over explicit character lists.  Python library
routines used by the source are modelled to the depth the device grammar
exercises them:

* `str.strip` removes ASCII whitespace (space, tab, newline, return,
  vertical tab, form feed);
* `int(...)` accepts surrounding whitespace, an optional sign and a
  nonempty digit run (underscore digit grouping and non-ASCII digits are
  not modelled);
* `float(...)` additionally accepts a decimal point, an exponent and the
  special values inf/infinity/nan, as exact rationals plus the three
  non-finite tags;
* `urllib.parse.urlsplit` extracts a lowercased scheme (leading ASCII
  letter followed by letters, digits, `+`, `-`, `.` before the first `:`),
  a netloc after `//`, then strips the fragment after `#` and splits the
  query after `?` (IPv6 bracket validation is not modelled);
* `urllib.parse.parse_qsl(..., keep_blank_values=True)` splits on `&`,
  drops empty fields, partitions each field at the first `=` and
  percent-decodes keys and values after turning `+` into a space
  (each `%XX` escape decodes to the code point of that byte; multi-byte
  UTF-8 sequences are not recombined);
* `shlex.split` follows the POSIX rules `shlex` uses with
  `whitespace_split=True`: single quotes are literal runs, double quotes
  allow backslash escapes of `\` and `"`, a backslash outside quotes
  escapes the next character, an unterminated quote or trailing escape
  raises `ValueError`;
* the platform-specific device-target guesser
  (`_guess_ffmpeg_device_target`) is a parameter of the embedding, since
  it branches on the host platform and shells out to the device
  enumerator; `_guess_ffmpeg_device_spec` is modelled on top of it.

A wave of the code raises exceptions that are not `CaptureError`
(`shlex` `ValueError` on malformed quoting, `int()` of a non-finite
`chunk_ms`); the outcome type keeps them distinct from configuration
errors. -/

/-- Python `str` whitespace for `strip()`. -/
def pyWhitespace (c : Char) : Bool :=
  c = ' ' || c = '\t' || c = '\n' || c = '\x0d' || c = '\x0b' || c = '\x0c'

def pyStripList (cs : List Char) : List Char :=
  ((cs.dropWhile pyWhitespace).reverse.dropWhile pyWhitespace).reverse

/-- Python `str.strip()`. -/
def pyStrip (s : String) : String := ⟨pyStripList s.toList⟩

/-- Split a character list at the first occurrence of `t` (excluded). -/
def splitFirst (t : Char) : List Char → Option (List Char × List Char)
  | [] => none
  | c :: rest =>
    if c = t then some ([], rest)
    else (splitFirst t rest).map (fun p => (c :: p.1, p.2))

def hexVal (c : Char) : Nat :=
  if c.isDigit then c.toNat - '0'.toNat
  else if 'a' ≤ c ∧ c ≤ 'f' then c.toNat - 'a'.toNat + 10
  else if 'A' ≤ c ∧ c ≤ 'F' then c.toNat - 'A'.toNat + 10
  else 0

def isHexChar (c : Char) : Bool :=
  c.isDigit || ('a' ≤ c && c ≤ 'f') || ('A' ≤ c && c ≤ 'F')

/-- `urllib.parse.unquote`: decode `%XX` escapes, leaving invalid escapes
as literal text. -/
def pdGo : Nat → List Char → List Char
  | 0, cs => cs
  | _ + 1, [] => []
  | fuel + 1, '%' :: h1 :: h2 :: rest2 =>
    if isHexChar h1 && isHexChar h2 then
      Char.ofNat (16 * hexVal h1 + hexVal h2) :: pdGo fuel rest2
    else '%' :: pdGo fuel (h1 :: h2 :: rest2)
  | fuel + 1, c :: rest => c :: pdGo fuel rest

def percentDecode (cs : List Char) : List Char := pdGo cs.length cs

/-- `urllib.parse.unquote_plus`: `+` to space, then percent decoding. -/
def unquotePlus (s : String) : String :=
  ⟨percentDecode (s.toList.map (fun c => if c = '+' then ' ' else c))⟩

def digitsVal (ds : List Char) : ℤ :=
  ds.foldl (fun acc c => 10 * acc + ((c.toNat - '0'.toNat : Nat) : ℤ)) 0

/-- Python `int(str)`. -/
def pythonInt (s : String) : Option ℤ :=
  let cs := pyStripList s.toList
  let signed : Bool × List Char :=
    match cs with
    | '+' :: rest => (false, rest)
    | '-' :: rest => (true, rest)
    | _ => (false, cs)
  if signed.2 ≠ [] ∧ signed.2.all Char.isDigit then
    some (if signed.1 then -(digitsVal signed.2) else digitsVal signed.2)
  else none

/-- A Python float: an exact rational or one of the non-finite values. -/
inductive PyFloat
  | finite (q : ℚ)
  | inf
  | neginf
  | nan
deriving DecidableEq, Repr

/-- The decimal part of a float literal: `digits[.digits][e[sign]digits]`. -/
def parseDecimal (cs : List Char) : Option ℚ :=
  let intPart := cs.takeWhile Char.isDigit
  let rest1 := cs.drop intPart.length
  let fracSplit : List Char × List Char :=
    match rest1 with
    | '.' :: r => (r.takeWhile Char.isDigit, r.drop (r.takeWhile Char.isDigit).length)
    | _ => ([], rest1)
  if intPart = [] ∧ fracSplit.1 = [] then none
  else
    let mant : ℚ := (digitsVal intPart : ℚ)
      + (digitsVal fracSplit.1 : ℚ) / ((10 : ℚ) ^ fracSplit.1.length)
    match fracSplit.2 with
    | [] => some mant
    | e :: r =>
      if e = 'e' ∨ e = 'E' then
        let esigned : Bool × List Char :=
          match r with
          | '+' :: r2 => (false, r2)
          | '-' :: r2 => (true, r2)
          | _ => (false, r)
        if esigned.2 ≠ [] ∧ esigned.2.all Char.isDigit then
          let n := (digitsVal esigned.2).toNat
          some (if esigned.1 then mant / (10 : ℚ) ^ n else mant * (10 : ℚ) ^ n)
        else none
      else none

/-- Python `float(str)`. -/
def pythonFloat (s : String) : Option PyFloat :=
  let cs := pyStripList s.toList
  let signed : Bool × List Char :=
    match cs with
    | '+' :: rest => (false, rest)
    | '-' :: rest => (true, rest)
    | _ => (false, cs)
  let low := signed.2.map Char.toLower
  if low = "inf".toList ∨ low = "infinity".toList then
    some (if signed.1 then .neginf else .inf)
  else if low = "nan".toList then some .nan
  else
    (parseDecimal signed.2).map
      (fun q => .finite (if signed.1 then -q else q))

/-- `max(x, 0.0)` as Python computes it for the parsed `chunk_ms` (`max`
keeps the first argument when the comparison with `nan` is false). -/
def pyMaxZero : PyFloat → PyFloat
  | .finite q => if 0 < q then .finite q else .finite 0
  | .inf => .inf
  | .neginf => .finite 0
  | .nan => .nan

/-! ### shlex.split (POSIX mode, whitespace_split) -/

/-- The lexing mode of `shlex.read_token`. -/
inductive ShlexMode
  | out
  | word
  | squote
  | dquote
  | escOut
  | escWord
  | escDquote
deriving DecidableEq, Repr

/-- One step of `shlex`: returns the updated accumulator.  `quoted` records
whether the current token saw a quote (an empty quoted token is still
emitted). -/
def shlexRun : List Char → ShlexMode → List Char → Bool → List String →
    Option (List String)
  | [], mode, token, quoted, acc =>
    match mode with
    | .squote | .dquote => none
    | .escOut | .escWord | .escDquote => none
    | .out => some acc.reverse
    | .word =>
      if token = [] ∧ ¬ quoted then some acc.reverse
      else some ((⟨token.reverse⟩ : String) :: acc).reverse
  | c :: rest, mode, token, quoted, acc =>
    match mode with
    | .out =>
      if pyWhitespace c then shlexRun rest .out [] false acc
      else if c = '\\' then shlexRun rest .escOut token quoted acc
      else if c = '\'' then shlexRun rest .squote token true acc
      else if c = '"' then shlexRun rest .dquote token true acc
      else shlexRun rest .word (c :: token) quoted acc
    | .word =>
      if pyWhitespace c then
        shlexRun rest .out [] false ((⟨token.reverse⟩ : String) :: acc)
      else if c = '\\' then shlexRun rest .escWord token quoted acc
      else if c = '\'' then shlexRun rest .squote token true acc
      else if c = '"' then shlexRun rest .dquote token true acc
      else shlexRun rest .word (c :: token) quoted acc
    | .squote =>
      if c = '\'' then shlexRun rest .word token quoted acc
      else shlexRun rest .squote (c :: token) quoted acc
    | .dquote =>
      if c = '"' then shlexRun rest .word token quoted acc
      else if c = '\\' then shlexRun rest .escDquote token quoted acc
      else shlexRun rest .dquote (c :: token) quoted acc
    | .escOut => shlexRun rest .word (c :: token) quoted acc
    | .escWord => shlexRun rest .word (c :: token) quoted acc
    | .escDquote =>
      if c = '\\' ∨ c = '"' then shlexRun rest .dquote (c :: token) quoted acc
      else shlexRun rest .dquote (c :: '\\' :: token) quoted acc

/-- `shlex.split(value)` as called by the parser: `none` models the
`ValueError` raised on an unterminated quote or a trailing escape. -/
def shlexSplit (s : String) : Option (List String) :=
  shlexRun s.toList .out [] false []

/-! ### urlsplit / parse_qsl -/

structure SplitResult where
  scheme : String
  netloc : String
  path : String
  query : String
deriving DecidableEq, Repr

def isSchemeChar (c : Char) : Bool :=
  c.isAlpha || c.isDigit || c = '+' || c = '-' || c = '.'

/-- `urllib.parse.urlsplit`, to the depth the device grammar uses it:
lowercased scheme before the first `:` (leading ASCII letter, then scheme
characters), netloc after `//` up to the next `/`, `?` or `#`, fragment
stripped after `#`, query after `?`. -/
def urlsplitLite (url : String) : SplitResult :=
  let cs := url.toList
  let schemeSplit : List Char × List Char :=
    match splitFirst ':' cs with
    | some (pre, post) =>
      if pre ≠ [] ∧ (pre.headD 'a').isAlpha ∧ pre.all isSchemeChar then
        (pre.map Char.toLower, post)
      else ([], cs)
    | none => ([], cs)
  let netlocSplit : List Char × List Char :=
    match schemeSplit.2 with
    | '/' :: '/' :: tail =>
      let nl := tail.takeWhile (fun c => ¬ (c = '/' ∨ c = '?' ∨ c = '#'))
      (nl, tail.drop nl.length)
    | rest => ([], rest)
  let beforeFragment : List Char :=
    match splitFirst '#' netlocSplit.2 with
    | some (pre, _) => pre
    | none => netlocSplit.2
  let querySplit : List Char × List Char :=
    match splitFirst '?' beforeFragment with
    | some (pre, post) => (pre, post)
    | none => (beforeFragment, [])
  ⟨⟨schemeSplit.1⟩, ⟨netlocSplit.1⟩, ⟨querySplit.1⟩, ⟨querySplit.2⟩⟩

/-- `urllib.parse.parse_qsl(query, keep_blank_values=True)`. -/
def parse_qsl (qs : String) : List (String × String) :=
  (qs.toList.splitOn '&').filterMap (fun field =>
    if field = [] then none
    else
      match splitFirst '=' field with
      | some (k, v) => some (unquotePlus ⟨k⟩, unquotePlus ⟨v⟩)
      | none => some (unquotePlus ⟨field⟩, ""))

/-! ### The device-spec parser proper -/

/-- The platform-specific `_guess_ffmpeg_device_target`, left abstract: it
branches on the host platform and may consult the device enumerator. -/
def GuessFun : Type := String → Option String

/-- `_guess_ffmpeg_device_spec` (lines 134-143): split off the query,
guess a target for the base, refuse an empty guess, reattach the query. -/
def guessDeviceSpec (g : GuessFun) (device : String) : Option String :=
  match splitFirst '?' device.toList with
  | some (b, q) =>
    match g ⟨b⟩ with
    | some t => if t = "" then none else some (t ++ "?" ++ (⟨q⟩ : String))
    | none => none
  | none =>
    match g device with
    | some t => if t = "" then none else some t
    | none => none

structure FFmpegDeviceSpec where
  input_format : String
  input_target : String
  args_before_input : List String
  args_after_input : List String
  sample_rate : ℤ
  channels : ℤ
  sample_format : String
  chunk_frames : Option ℤ
deriving DecidableEq, Repr

/-- Loop state of the option-processing `for` loop of `parse_ffmpeg_device`
(lines 181-237). -/
structure OptState where
  sample_rate : ℤ
  channels : ℤ
  sample_format : String
  chunk_frames : Option ℤ
  pending_chunk_ms : Option PyFloat
  args_before : List String
  args_after : List String
deriving DecidableEq, Repr

def lowerStr (s : String) : String := ⟨s.toList.map Char.toLower⟩

/-- `"-" + key[n:].replace("_", "-")`. -/
def dashOption (suffix : String) : String :=
  "-" ++ (⟨suffix.toList.map (fun c => if c = '_' then '-' else c)⟩ : String)

/-- `str.startswith`, computably on character lists. -/
def listStartsWith : List Char → List Char → Bool
  | [], _ => true
  | _ :: _, [] => false
  | p :: ps, c :: cs => p = c && listStartsWith ps cs

def strStartsWith (k p : String) : Bool := listStartsWith p.toList k.toList

/-- `str[n:]`, computably on character lists. -/
def strDrop (s : String) (n : Nat) : String := ⟨s.toList.drop n⟩

/-- What one `elif` arm of the option loop decides to do for a `(key,
value)` pair; the arms appear in source order and with the source's
conditions. -/
inductive PairAction
  | setSampleRate (n : ℤ)
  | invalidSampleRate (v : String)
  | setChannels (n : ℤ)
  | invalidChannels (v : String)
  | setSampleFmt (s : String)
  | setChunkFrames (n : ℤ)
  | invalidChunkFrames (v : String)
  | setChunkMs (x : PyFloat)
  | invalidChunkMs (v : String)
  | addArgs (ts : List String)
  | argsQuoteError
  | addOutArgs (ts : List String)
  | outArgsQuoteError
  | addOpt (opt v : String)
  | addFlag (opt : String)
  | addOutOpt (opt v : String)
  | addOutFlag (opt : String)
  | skip
  | unknownKey (k : String)
deriving DecidableEq, Repr

/-- The `elif` chain of the loop body for one `(key, value)` pair. -/
def classifyPair (k v : String) : PairAction :=
  if k = "sample_rate" ∧ v ≠ "" then
    match pythonInt v with
    | some n => .setSampleRate n
    | none => .invalidSampleRate v
  else if k = "channels" ∧ v ≠ "" then
    match pythonInt v with
    | some n => .setChannels n
    | none => .invalidChannels v
  else if k = "sample_fmt" ∧ v ≠ "" then .setSampleFmt (lowerStr v)
  else if k = "chunk_frames" ∧ v ≠ "" then
    match pythonInt v with
    | some n => .setChunkFrames (max n 1)
    | none => .invalidChunkFrames v
  else if k = "chunk_ms" ∧ v ≠ "" then
    match pythonFloat v with
    | some x => .setChunkMs (pyMaxZero x)
    | none => .invalidChunkMs v
  else if k = "args" ∧ v ≠ "" then
    match shlexSplit v with
    | some ts => .addArgs ts
    | none => .argsQuoteError
  else if k = "out_args" ∧ v ≠ "" then
    match shlexSplit v with
    | some ts => .addOutArgs ts
    | none => .outArgsQuoteError
  else if strStartsWith k "opt_" then
    if v ≠ "" then .addOpt (dashOption (strDrop k 4)) v
    else .addFlag (dashOption (strDrop k 4))
  else if strStartsWith k "flag_" then .addFlag (dashOption (strDrop k 5))
  else if strStartsWith k "out_opt_" then
    if v ≠ "" then .addOutOpt (dashOption (strDrop k 8)) v
    else .addOutFlag (dashOption (strDrop k 8))
  else if strStartsWith k "out_flag_" then .addOutFlag (dashOption (strDrop k 9))
  else if k = "" then .skip
  else .unknownKey k

/-- Outcome of processing the option pairs. -/
inductive LoopResult
  | ok (st : OptState)
  | captureError (msg : String)
  | pyError (msg : String)
deriving DecidableEq, Repr

def applyPairAction (st : OptState) : PairAction → LoopResult
  | .setSampleRate n => .ok { st with sample_rate := n }
  | .invalidSampleRate v => .captureError ("Invalid FFmpeg sample_rate: " ++ v)
  | .setChannels n => .ok { st with channels := n }
  | .invalidChannels v => .captureError ("Invalid FFmpeg channels: " ++ v)
  | .setSampleFmt s => .ok { st with sample_format := s }
  | .setChunkFrames n => .ok { st with chunk_frames := some n }
  | .invalidChunkFrames v => .captureError ("Invalid FFmpeg chunk_frames: " ++ v)
  | .setChunkMs x => .ok { st with pending_chunk_ms := some x }
  | .invalidChunkMs v => .captureError ("Invalid FFmpeg chunk_ms: " ++ v)
  | .addArgs ts => .ok { st with args_before := st.args_before ++ ts }
  | .argsQuoteError => .pyError "ValueError: No closing quotation"
  | .addOutArgs ts => .ok { st with args_after := st.args_after ++ ts }
  | .outArgsQuoteError => .pyError "ValueError: No closing quotation"
  | .addOpt opt v => .ok { st with args_before := st.args_before ++ [opt, v] }
  | .addFlag opt => .ok { st with args_before := st.args_before ++ [opt] }
  | .addOutOpt opt v => .ok { st with args_after := st.args_after ++ [opt, v] }
  | .addOutFlag opt => .ok { st with args_after := st.args_after ++ [opt] }
  | .skip => .ok st
  | .unknownKey k => .captureError ("Unknown FFmpeg device option: " ++ k)

def processPair (st : OptState) (kv : String × String) : LoopResult :=
  applyPairAction st (classifyPair kv.1 kv.2)

def processPairs (st : OptState) : List (String × String) → LoopResult
  | [] => .ok st
  | kv :: rest =>
    match processPair st kv with
    | .ok st' => processPairs st' rest
    | .captureError m => .captureError m
    | .pyError m => .pyError m

/-- The conversion of a pending `chunk_ms` into frames after the loop:
`max(int(sample_rate * (pending_chunk_ms / 1000.0)), 1)`, applied only
when no explicit `chunk_frames` was given; `int()` of a non-finite float
raises. -/
inductive ChunkResult
  | ok (v : Option ℤ)
  | pyError (msg : String)
deriving DecidableEq, Repr

def resolveChunk (st : OptState) : ChunkResult :=
  match st.pending_chunk_ms, st.chunk_frames with
  | some pf, none =>
    match pf with
    | .finite q => .ok (some (max (truncToInt ((st.sample_rate : ℚ) * (q / 1000))) 1))
    | .inf => .pyError "OverflowError: cannot convert float infinity to integer"
    | .neginf => .pyError "OverflowError: cannot convert float infinity to integer"
    | .nan => .pyError "ValueError: cannot convert float NaN to integer"
  | _, cf => .ok cf

/-- The stripped-and-guessed device string `normalized_device` (lines
157-167). -/
def normalizedDevice (g : GuessFun) (device : String) : String :=
  let nd := pyStrip device
  if (urlsplitLite nd).scheme = "" then
    match guessDeviceSpec g nd with
    | some guessed => guessed
    | none => nd
  else nd

def effSplit (g : GuessFun) (device : String) : SplitResult :=
  urlsplitLite (normalizedDevice g device)

def schemeErrorMsg : String :=
  "FFmpeg device specification must start with an input format, " ++
  "for example \x27pulse:bluez_source.XX\x27 or \x27dshow:audio=Device\x27"

def supportedFormats : List String := ["f32le", "s16le", "s32le"]

def formatErrorMsg : String :=
  "FFmpeg output format must be one of: f32le, s16le, s32le"

/-- The possible outcomes of `parse_ffmpeg_device`: a spec, a
`CaptureError`, or an uncaught non-`CaptureError` exception. -/
inductive ParseOutcome
  | ok (spec : FFmpegDeviceSpec)
  | captureError (msg : String)
  | pyError (msg : String)
deriving DecidableEq, Repr

/-- `parse_ffmpeg_device` (lines 146-263), with the platform guesser as a
parameter. -/
def parse_ffmpeg_device (g : GuessFun) (device : String)
    (default_sample_rate default_channels : ℤ) : ParseOutcome :=
  if device = "" then
    .captureError "FFmpeg backend requires a device specification"
  else
    let sp := effSplit g device
    if sp.scheme = "" then .captureError schemeErrorMsg
    else
      let input_format := sp.scheme
      let input_target := pyStrip (sp.netloc ++ sp.path)
      if input_target = "" then
        .captureError "FFmpeg device specification must include a device identifier"
      else
        let st0 : OptState :=
          ⟨default_sample_rate, default_channels, "f32le", none, none, [], []⟩
        match processPairs st0 (parse_qsl sp.query) with
        | .captureError m => .captureError m
        | .pyError m => .pyError m
        | .ok st =>
          if st.sample_rate ≤ 0 then
            .captureError "FFmpeg sample_rate must be a positive integer"
          else if st.channels ≤ 0 then
            .captureError "FFmpeg channels must be a positive integer"
          else
            match resolveChunk st with
            | .pyError m => .pyError m
            | .ok chunk =>
              let fmt := lowerStr st.sample_format
              if fmt ∉ supportedFormats then .captureError formatErrorMsg
              else
                .ok ⟨input_format, input_target, st.args_before, st.args_after,
                  st.sample_rate, st.channels, fmt, chunk⟩

/-! ### Claim-side failure conditions (written from the specification's
enumeration, to be compared with the parser above). -/

def numericIntKeys : List String := ["sample_rate", "channels", "chunk_frames"]

def recognizedKey (k : String) : Bool :=
  decide (k ∈ ["sample_rate", "channels", "sample_fmt", "chunk_frames",
    "chunk_ms", "args", "out_args"]) ||
  strStartsWith k "opt_" || strStartsWith k "flag_" ||
  strStartsWith k "out_opt_" || strStartsWith k "out_flag_"

def resolvedRate (pairs : List (String × String)) (dflt : ℤ) : ℤ :=
  pairs.foldl (fun acc kv =>
    if kv.1 = "sample_rate" ∧ kv.2 ≠ "" then (pythonInt kv.2).getD acc else acc) dflt

def resolvedChannels (pairs : List (String × String)) (dflt : ℤ) : ℤ :=
  pairs.foldl (fun acc kv =>
    if kv.1 = "channels" ∧ kv.2 ≠ "" then (pythonInt kv.2).getD acc else acc) dflt

def resolvedFmtRaw (pairs : List (String × String)) : String :=
  pairs.foldl (fun acc kv =>
    if kv.1 = "sample_fmt" ∧ kv.2 ≠ "" then lowerStr kv.2 else acc) "f32le"

/-- The specification's enumeration of the configuration-error conditions:
empty device string; no determinable format/scheme; empty target; a
numeric option that fails to parse; an unrecognized option key; a
non-positive resolved sample rate or channel count; an unsupported sample
encoding. -/
def claimedFailureB (g : GuessFun) (device : String)
    (dsr dch : ℤ) : Bool :=
  let sp := effSplit g device
  let pairs := parse_qsl sp.query
  decide (device = "") ||
  decide (sp.scheme = "") ||
  decide (pyStrip (sp.netloc ++ sp.path) = "") ||
  pairs.any (fun kv =>
    decide (kv.1 ∈ numericIntKeys) && (pythonInt kv.2).isNone) ||
  pairs.any (fun kv => decide (kv.1 = "chunk_ms") && (pythonFloat kv.2).isNone) ||
  pairs.any (fun kv => decide (kv.1 ≠ "") && !(recognizedKey kv.1)) ||
  decide (resolvedRate pairs dsr ≤ 0) ||
  decide (resolvedChannels pairs dch ≤ 0) ||
  decide (lowerStr (resolvedFmtRaw pairs) ∉ supportedFormats)

/-- The amended failure condition: additionally, one of the plain
(non-numeric, non-prefixed) recognized option keys appearing with a blank
value is rejected as an unknown option. -/
def amendedFailureB (g : GuessFun) (device : String)
    (dsr dch : ℤ) : Bool :=
  claimedFailureB g device dsr dch ||
  (parse_qsl (effSplit g device).query).any (fun kv =>
    decide (kv.1 ∈ (["sample_fmt", "args", "out_args"] : List String)) &&
    decide (kv.2 = ""))

/-- Whether a pair makes the option loop raise a `CaptureError`. -/
def badCaptureB (kv : String × String) : Bool :=
  match classifyPair kv.1 kv.2 with
  | .invalidSampleRate _ => true
  | .invalidChannels _ => true
  | .invalidChunkFrames _ => true
  | .invalidChunkMs _ => true
  | .unknownKey _ => true
  | _ => false

/-- Whether a pair makes the option loop raise an uncaught `ValueError`. -/
def badPyB (kv : String × String) : Bool :=
  match classifyPair kv.1 kv.2 with
  | .argsQuoteError => true
  | .outArgsQuoteError => true
  | _ => false

/-- The claim-side failure condition of one pair: a numeric option that
fails to parse, an unrecognized key, or a plain recognized key with a
blank value. -/
def pairFailB (kv : String × String) : Bool :=
  (decide (kv.1 ∈ numericIntKeys) && (pythonInt kv.2).isNone) ||
  (decide (kv.1 = "chunk_ms") && (pythonFloat kv.2).isNone) ||
  (decide (kv.1 ≠ "") && !(recognizedKey kv.1)) ||
  (decide (kv.1 ∈ (["sample_fmt", "args", "out_args"] : List String)) &&
    decide (kv.2 = ""))

/-- A concrete capture state with one queued block, used to instantiate the
lifecycle and read theorems. -/
def sampleCaptureState : CaptureState :=
  { CaptureState.mk0 with queue := [[[1/2]]] }

/-- A concrete running capture state (process spawned, both threads live). -/
def runningCaptureState : CaptureState :=
  ⟨true, true, false, true, true, [], 16, 0, 0⟩

end ADsum

/-! # Theorems -/

namespace ADsum

/-- C8: for every `RecordingControl` and every sequence of control calls:
before `request_stop`, `request_pause` and `request_resume` toggle the state
between recording and paused; once `request_stop` has been called,
`should_stop` stays true under every further call sequence, `is_paused` and
`is_recording` are both false, subsequent pause/resume calls change no
state, and `request_stop` also sets the resume signal. -/
theorem recording_control_state_machine (c : RecordingControl)
    (hpre : c.stop = false) (acts : List RecordingControl.Action) :
    (c.request_pause.is_paused = true ∧ c.request_pause.is_recording = false ∧
      c.request_pause.request_resume.is_recording = true ∧
      c.request_pause.request_resume.is_paused = false) ∧
    (c.request_stop.should_stop = true ∧
      c.request_stop.is_paused = false ∧ c.request_stop.is_recording = false ∧
      c.request_stop.resume = true ∧
      c.request_stop.request_pause = c.request_stop ∧
      c.request_stop.request_resume = c.request_stop ∧
      (RecordingControl.applyAll c.request_stop acts).should_stop = true) := by
  constructor
  · simp [RecordingControl.request_pause, RecordingControl.request_resume,
      RecordingControl.is_paused, RecordingControl.is_recording, hpre]
  · refine ⟨rfl, ?_, ?_, rfl, ?_, ?_, ?_⟩
    · simp [RecordingControl.request_stop, RecordingControl.is_paused]
    · simp [RecordingControl.request_stop, RecordingControl.is_recording]
    · simp [RecordingControl.request_pause, RecordingControl.request_stop]
    · simp [RecordingControl.request_resume, RecordingControl.request_stop]
    · have hgen : ∀ (acts : List RecordingControl.Action) (d : RecordingControl),
        d.stop = true → (RecordingControl.applyAll d acts).stop = true := by
        intro acts
        induction acts with
        | nil => intro d hd; simpa [RecordingControl.applyAll] using hd
        | cons a rest ih =>
          intro d hd
          have hstep : (d.applyAction a).stop = true := by
            cases a <;>
              simp [RecordingControl.applyAction, RecordingControl.request_pause,
                RecordingControl.request_resume, RecordingControl.request_stop, hd]
          simpa [RecordingControl.applyAll] using ih _ hstep
      exact hgen acts c.request_stop rfl

/-- Witness for `recording_control_state_machine` at the freshly initialised
control and a concrete call sequence. -/
theorem recording_control_state_machine_witness :
    (RecordingControl.init.request_pause.is_paused = true ∧
      RecordingControl.init.request_pause.is_recording = false ∧
      RecordingControl.init.request_pause.request_resume.is_recording = true ∧
      RecordingControl.init.request_pause.request_resume.is_paused = false) ∧
    (RecordingControl.init.request_stop.should_stop = true ∧
      RecordingControl.init.request_stop.is_paused = false ∧
      RecordingControl.init.request_stop.is_recording = false ∧
      RecordingControl.init.request_stop.resume = true ∧
      RecordingControl.init.request_stop.request_pause
        = RecordingControl.init.request_stop ∧
      RecordingControl.init.request_stop.request_resume
        = RecordingControl.init.request_stop ∧
      (RecordingControl.applyAll RecordingControl.init.request_stop
        [.pause, .resume, .pause]).should_stop = true) :=
  recording_control_state_machine RecordingControl.init rfl [.pause, .resume, .pause]

/-- C6: `read` with zero or absent timeout returns `none` immediately when
no block is queued, and in every state — any timeout, empty queue,
end-of-stream — it returns a value rather than raising: the absence of a
block is `none`.  (`FFmpegCapture.read` catches `queue.Empty` in both the
`get_nowait` and the `get(timeout=...)` branch; with zero/absent timeout
the non-blocking `get_nowait` branch is taken.) -/
theorem capture_read_nonblocking (s : CaptureState) (timeout : Option ℚ)
    (hnb : timeout = none ∨ ∃ t, timeout = some t ∧ t ≤ 0) :
    CaptureState.read timeout s = (s.queue.head?, { s with queue := s.queue.tail }) ∧
    (s.queue = [] → CaptureState.read timeout s = (none, s)) ∧
    (∀ t' : Option ℚ, ∀ s' : CaptureState, s'.queue = [] →
      CaptureState.read t' s' = (none, s')) := by
  obtain ⟨a, b2, c, d, e, q, f, g, h⟩ := s
  refine ⟨?_, ?_, ?_⟩
  · rcases hnb with h' | ⟨t, ht, _⟩ <;> subst_vars <;> cases q <;>
      simp [CaptureState.read]
  · intro hq
    simp only at hq
    rcases hnb with h' | ⟨t, ht, _⟩ <;> subst_vars <;> simp [CaptureState.read]
  · intro t' s' hq
    obtain ⟨a', b', c', d', e', q', f', g', h'⟩ := s'
    simp only at hq
    cases t' <;> subst hq <;> simp [CaptureState.read]

/-- Witness for `capture_read_nonblocking` on a concrete capture state with
one queued block and a zero timeout. -/
theorem capture_read_nonblocking_witness :
    CaptureState.read (some 0) sampleCaptureState
      = (sampleCaptureState.queue.head?,
          { sampleCaptureState with queue := sampleCaptureState.queue.tail }) ∧
    (sampleCaptureState.queue = [] →
      CaptureState.read (some 0) sampleCaptureState = (none, sampleCaptureState)) ∧
    (∀ t' : Option ℚ, ∀ s' : CaptureState, s'.queue = [] →
      CaptureState.read t' s' = (none, s')) :=
  capture_read_nonblocking sampleCaptureState (some 0)
    (Or.inr ⟨0, rfl, le_refl 0⟩)

/-- C7: `stop` and `close` are idempotent — a second call changes nothing
and in particular performs no second pipe close or thread join; `stop` on a
never-started capture is the identity; `close` after `stop` releases the
pipes at most once; and `start` on an already-started capture is a no-op.
All of `stop`/`close` are total (the source suppresses every exception they
could raise), so "produces no error" holds by construction. -/
theorem capture_lifecycle_idempotent (s : CaptureState) (b : Option String)
    (hspawned : s.processSpawned = true) :
    CaptureState.stop (CaptureState.stop s) = CaptureState.stop s ∧
    CaptureState.close (CaptureState.close s) = CaptureState.close s ∧
    (CaptureState.close (CaptureState.close s)).pipesClosedCount
      = (CaptureState.close s).pipesClosedCount ∧
    (CaptureState.close (CaptureState.close s)).threadsJoinedCount
      = (CaptureState.close s).threadsJoinedCount ∧
    (∀ s' : CaptureState, s'.processSpawned = false → CaptureState.stop s' = s') ∧
    (CaptureState.close (CaptureState.stop s)).pipesClosedCount
      ≤ s.pipesClosedCount + 1 ∧
    CaptureState.start b s = .ok s := by
  refine ⟨?_, ?_, ?_, ?_, ?_, ?_, ?_⟩
  · by_cases h : s.processSpawned <;> simp [CaptureState.stop, h]
  · simp [CaptureState.close]
  · simp [CaptureState.close]
  · simp [CaptureState.close]
  · intro s' h; simp [CaptureState.stop, h]
  · by_cases h : s.processSpawned <;>
      simp [CaptureState.stop, CaptureState.close, h]
  · simp [CaptureState.start, hspawned]

/-- Witness for `capture_lifecycle_idempotent` at a concrete running
capture state. -/
theorem capture_lifecycle_idempotent_witness :
    CaptureState.stop (CaptureState.stop runningCaptureState)
      = CaptureState.stop runningCaptureState ∧
    CaptureState.close (CaptureState.close runningCaptureState)
      = CaptureState.close runningCaptureState ∧
    (CaptureState.close (CaptureState.close runningCaptureState)).pipesClosedCount
      = (CaptureState.close runningCaptureState).pipesClosedCount ∧
    (CaptureState.close (CaptureState.close runningCaptureState)).threadsJoinedCount
      = (CaptureState.close runningCaptureState).threadsJoinedCount ∧
    (∀ s' : CaptureState, s'.processSpawned = false → CaptureState.stop s' = s') ∧
    (CaptureState.close (CaptureState.stop runningCaptureState)).pipesClosedCount
      ≤ runningCaptureState.pipesClosedCount + 1 ∧
    CaptureState.start (some "/usr/bin/ffmpeg") runningCaptureState
      = .ok runningCaptureState :=
  capture_lifecycle_idempotent runningCaptureState (some "/usr/bin/ffmpeg") rfl

/-! ### Writer lemmas -/

theorem clipSample_bounds (q : ℚ) : -1 ≤ clipSample q ∧ clipSample q ≤ 1 := by
  constructor
  · exact le_max_left _ _
  · unfold clipSample
    rcases le_total ((-1 : ℚ)) (min 1 q) with h | h
    · rw [max_eq_right h]; exact min_le_left _ _
    · rw [max_eq_left h]; linarith

theorem toInt16_bounds (q : ℚ) : -32767 ≤ toInt16 q ∧ toInt16 q ≤ 32767 := by
  obtain ⟨hc1, hc2⟩ := clipSample_bounds q
  unfold toInt16 truncToInt
  have hx1 : -32767 ≤ clipSample q * 32767 := by nlinarith
  have hx2 : clipSample q * 32767 ≤ 32767 := by nlinarith
  split
  · constructor
    · have h0 : (0 : ℤ) ≤ ⌊clipSample q * 32767⌋ := by
        rw [Int.le_floor]; simpa using ‹0 ≤ clipSample q * 32767›
      omega
    · have := Int.floor_le_floor hx2
      simpa using this
  · rename_i hneg
    push_neg at hneg
    have h0 : (0 : ℤ) ≤ ⌊-(clipSample q * 32767)⌋ := by
      rw [Int.le_floor]; push_cast; linarith
    have h1 : ⌊-(clipSample q * 32767)⌋ ≤ 32767 := by
      have := Int.floor_le_floor (show -(clipSample q * 32767) ≤ (32767 : ℚ) by linarith)
      simpa using this
    omega

theorem dup_rows_flatten (rows : List (List ℚ))
    (h : ∀ r ∈ rows, r.length = 1) :
    (rows.map (fun r => r.flatMap (fun x => [x, x]))).flatMap
        (fun r => r.map toInt16)
      = rows.flatMap (fun r => [toInt16 (r.headD 0), toInt16 (r.headD 0)]) := by
  induction rows with
  | nil => rfl
  | cons r t ih =>
    have hr : r.length = 1 := h r (by simp)
    obtain ⟨x, hx⟩ : ∃ x, r = [x] := by
      cases r with
      | nil => simp at hr
      | cons a s =>
        cases s with
        | nil => exact ⟨a, rfl⟩
        | cons c u => simp at hr
    subst hx
    simp only [List.map_cons, List.flatMap_cons]
    rw [ih (fun r' hr' => h r' (by simp [hr']))]
    rfl

theorem chunkExact_spec (c : Nat) (hc : 0 < c) :
    ∀ (n : Nat) (xs : List ℚ), xs.length = c * n →
      (chunkExact c xs).length = n ∧ ∀ r ∈ chunkExact c xs, r.length = c := by
  intro n
  induction n with
  | zero =>
    intro xs hlen
    have hxs : xs = [] := List.length_eq_zero.mp (by omega)
    subst hxs
    refine ⟨by simp [chunkExact], ?_⟩
    intro r hr
    simp [chunkExact] at hr
  | succ m ih =>
    intro xs hlen
    obtain ⟨c', rfl⟩ : ∃ c', c = c' + 1 := ⟨c - 1, by omega⟩
    cases xs with
    | nil => simp at hlen
    | cons x rest =>
      have hlen0 : rest.length + 1 = (c' + 1) * (m + 1) := by simpa using hlen
      have hprod : (c' + 1) * (m + 1) = (c' + 1) * m + (c' + 1) := by ring
      have hlen' : ((x :: rest).drop (c' + 1)).length = (c' + 1) * m := by
        rw [List.length_drop]
        simp only [List.length_cons]
        omega
      obtain ⟨ihlen, ihrows⟩ := ih _ hlen'
      refine ⟨?_, ?_⟩
      · simp only [chunkExact, List.length_cons, ihlen]
      · intro r hr
        simp only [chunkExact] at hr
        rcases List.mem_cons.mp hr with hhead | htail
        · subst hhead
          rw [List.length_take]
          simp only [List.length_cons]
          omega
        · exact ihrows r htail

theorem flatRows_toInt16_length (width : Nat) (rows : List (List ℚ))
    (h : ∀ r ∈ rows, r.length = width) :
    (rows.flatMap (fun r => r.map toInt16)).length = width * rows.length := by
  induction rows with
  | nil => simp
  | cons r t ih =>
    simp only [List.flatMap_cons, List.length_append, List.length_map,
      h r (by simp), List.length_cons, ih (fun x hx => h x (by simp [hx]))]
    ring

theorem wellFormed_rows {b : FrameBlock} (hwf : b.wellFormed = true) :
    ∀ r ∈ b.rows, r.length = b.width := by
  unfold FrameBlock.wellFormed at hwf
  simpa [List.all_eq_true, decide_eq_true_eq] using hwf

theorem write_matching (w : AudioFileWriter) (b : FrameBlock)
    (hwf : b.wellFormed = true) (hmatch : b.width = w.channels) :
    ∃ w', w.write b = .ok w' ∧
      w'.channels = w.channels ∧ w'.sample_rate = w.sample_rate ∧
      w'.frames_written = w.frames_written + b.rows.length ∧
      w'.fileSamples.length = w.fileSamples.length + w.channels * b.rows.length := by
  have hok : w.write b = .ok { w with
      fileSamples := w.fileSamples ++ b.rows.flatMap (fun r => r.map toInt16),
      frames_written := w.frames_written + b.rows.length } := by
    unfold AudioFileWriter.write
    simp [hmatch]
  refine ⟨_, hok, rfl, rfl, rfl, ?_⟩
  simp only [List.length_append]
  rw [flatRows_toInt16_length b.width b.rows (wellFormed_rows hwf), hmatch]

/-- C10: `AudioFileWriter.write` accepts a one-column block on a two-channel
writer by duplicating the column; every other channel mismatch is a
`ValueError` and nothing is written (the error carries no new state); on
success `frames_written` grows by exactly the block's frame count and every
appended 16-bit sample comes from clipping the float sample into
`[-1.0, 1.0]` first, so it lies in `[-32767, 32767]`. -/
theorem write_channel_adaptation (w : AudioFileWriter) (b : FrameBlock)
    (hwf : b.wellFormed = true) :
    (b.width = 1 → w.channels = 2 →
      ∃ w', w.write b = .ok w' ∧
        w'.fileSamples = w.fileSamples ++
          b.rows.flatMap (fun r => [toInt16 (r.headD 0), toInt16 (r.headD 0)]) ∧
        w'.frames_written = w.frames_written + b.rows.length) ∧
    (b.width ≠ w.channels → ¬(b.width = 1 ∧ w.channels = 2) →
      w.write b = .error "Channel mismatch when writing audio") ∧
    (∀ w', w.write b = .ok w' →
      w'.frames_written = w.frames_written + b.rows.length ∧
      ∀ z ∈ w'.fileSamples.drop w.fileSamples.length,
        -32767 ≤ z ∧ z ≤ 32767) := by
  refine ⟨?_, ?_, ?_⟩
  · intro h1 h2
    have hne : ¬ b.width = w.channels := by omega
    have hok : w.write b = .ok { w with
        fileSamples := w.fileSamples ++
          (b.rows.map (fun r => r.flatMap (fun x => [x, x]))).flatMap
            (fun r => r.map toInt16),
        frames_written := w.frames_written +
          (b.rows.map (fun r => r.flatMap (fun x => [x, x]))).length } := by
      unfold AudioFileWriter.write
      simp [hne, h1, h2]
    refine ⟨_, hok, ?_, ?_⟩
    · show w.fileSamples ++ _ = w.fileSamples ++ _
      rw [dup_rows_flatten b.rows (by
        intro r hr; rw [wellFormed_rows hwf r hr, h1])]
    · simp
  · intro hne hnot
    unfold AudioFileWriter.write
    rw [if_neg hne, if_neg hnot]
  · intro w' hok
    unfold AudioFileWriter.write at hok
    by_cases hm : b.width = w.channels
    · rw [if_pos hm] at hok
      simp only [Except.ok.injEq] at hok
      subst hok
      refine ⟨rfl, ?_⟩
      intro z hz
      rw [List.drop_left] at hz
      obtain ⟨r, _, hz'⟩ := List.mem_flatMap.mp hz
      obtain ⟨q, _, rfl⟩ := List.mem_map.mp hz'
      exact toInt16_bounds q
    · rw [if_neg hm] at hok
      by_cases hd : b.width = 1 ∧ w.channels = 2
      · rw [if_pos hd] at hok
        simp only [Except.ok.injEq] at hok
        subst hok
        refine ⟨by simp, ?_⟩
        intro z hz
        rw [List.drop_left] at hz
        obtain ⟨r, _, hz'⟩ := List.mem_flatMap.mp hz
        obtain ⟨q, _, rfl⟩ := List.mem_map.mp hz'
        exact toInt16_bounds q
      · rw [if_neg hd] at hok
        simp at hok

/-- Witness for `write_channel_adaptation`: a two-channel writer receiving a
one-column two-frame block. -/
theorem write_channel_adaptation_witness :
    let w := AudioFileWriter.openWriter 16000 2
    let b : FrameBlock := ⟨1, [[1/4], [2]]⟩
    (b.width = 1 → w.channels = 2 →
      ∃ w', w.write b = .ok w' ∧
        w'.fileSamples = w.fileSamples ++
          b.rows.flatMap (fun r => [toInt16 (r.headD 0), toInt16 (r.headD 0)]) ∧
        w'.frames_written = w.frames_written + b.rows.length) ∧
    (b.width ≠ w.channels → ¬(b.width = 1 ∧ w.channels = 2) →
      w.write b = .error "Channel mismatch when writing audio") ∧
    (∀ w', w.write b = .ok w' →
      w'.frames_written = w.frames_written + b.rows.length ∧
      ∀ z ∈ w'.fileSamples.drop w.fileSamples.length,
        -32767 ≤ z ∧ z ≤ 32767) :=
  write_channel_adaptation (AudioFileWriter.openWriter 16000 2)
    ⟨1, [[1/4], [2]]⟩ (by decide)

theorem writeAll_invariant (c : Nat) (blocks : List FrameBlock)
    (hblocks : ∀ b ∈ blocks, b.width = c ∧ b.wellFormed = true) :
    ∀ w : AudioFileWriter, w.channels = c →
      w.fileSamples.length = c * w.frames_written →
      ∃ w', AudioFileWriter.writeAll w blocks = .ok w' ∧
        w'.channels = c ∧ w'.sample_rate = w.sample_rate ∧
        w'.fileSamples.length = c * w'.frames_written ∧
        w'.frames_written
          = w.frames_written + (blocks.map (fun b => b.rows.length)).sum := by
  induction blocks with
  | nil =>
    intro w hw hlen
    exact ⟨w, rfl, hw, rfl, hlen, by simp⟩
  | cons b rest ih =>
    intro w hw hlen
    obtain ⟨hbw, hbwf⟩ := hblocks b (by simp)
    obtain ⟨w1, hok, hch, hsr, hfw, hflen⟩ :=
      write_matching w b hbwf (by rw [hbw, hw])
    obtain ⟨w', hok', h1, h2, h3, h4⟩ :=
      ih (fun b' hb' => hblocks b' (by simp [hb'])) w1 (by rw [hch, hw])
        (by rw [hflen, hfw, hlen, hw]; ring)
    refine ⟨w', ?_, h1, by rw [h2, hsr], h3, ?_⟩
    · show AudioFileWriter.writeAll w (b :: rest) = .ok w'
      unfold AudioFileWriter.writeAll
      rw [hok]
      exact hok'
    · rw [h4, hfw]
      simp only [List.map_cons, List.sum_cons]
      ring

/-- C5: writing any sequence of frame blocks whose channel count matches the
writer's through `AudioFileWriter` and reading the file back with
`read_wave` yields exactly the total written frame count (hence within ±1)
and the channel count the writer was configured with. -/
theorem writer_read_roundtrip (rate c : Nat) (hc : 0 < c)
    (blocks : List FrameBlock)
    (hblocks : ∀ b ∈ blocks, b.width = c ∧ b.wellFormed = true) :
    ∃ w, AudioFileWriter.writeAll (AudioFileWriter.openWriter rate c) blocks
        = .ok w ∧
      (read_wave w.toWaveFile).2 = rate ∧
      (read_wave w.toWaveFile).1.rows.length
        = (blocks.map (fun b => b.rows.length)).sum ∧
      (((read_wave w.toWaveFile).1.rows.length : ℤ)
          - ((blocks.map (fun b => b.rows.length)).sum : ℤ)).natAbs ≤ 1 ∧
      (read_wave w.toWaveFile).1.width = c ∧
      ∀ r ∈ (read_wave w.toWaveFile).1.rows, r.length = c := by
  obtain ⟨w, hok, hch, hsr, hlen, hfw⟩ :=
    writeAll_invariant c blocks hblocks (AudioFileWriter.openWriter rate c) rfl rfl
  have hfw' : w.frames_written = (blocks.map (fun b => b.rows.length)).sum := by
    simpa [AudioFileWriter.openWriter] using hfw
  have hsr' : w.sample_rate = rate := by
    simpa [AudioFileWriter.openWriter] using hsr
  have hread : read_wave w.toWaveFile
      = (⟨if w.channels > 1 then w.channels else 1,
          chunkExact (if w.channels > 1 then w.channels else 1)
            (w.fileSamples.map (fun z : ℤ => (z : ℚ) / 32767))⟩, w.sample_rate) := rfl
  have hwidth : (if w.channels > 1 then w.channels else 1) = c := by
    rw [hch]
    split <;> omega
  have hmaplen :
      (w.fileSamples.map (fun z : ℤ => (z : ℚ) / 32767)).length
        = c * w.frames_written := by
    rw [List.length_map]
    exact hlen
  obtain ⟨hrowslen, hrows⟩ :=
    chunkExact_spec c hc w.frames_written
      (w.fileSamples.map (fun z : ℤ => (z : ℚ) / 32767)) hmaplen
  refine ⟨w, hok, ?_, ?_, ?_, ?_, ?_⟩
  · rw [hread]
    exact hsr'
  · rw [hread]
    simp only [hwidth]
    rw [hrowslen, hfw']
  · rw [hread]
    simp only [hwidth]
    rw [hrowslen, hfw']
    push_cast
    rw [List.map_map]
    simp only [Function.comp_def]
    rw [sub_self]
    simp
  · rw [hread]
    exact hwidth
  · intro r hr
    rw [hread] at hr
    simp only [hwidth] at hr
    exact hrows r hr

/-- Witness for `writer_read_roundtrip`: one mono writer at 8000 Hz fed two
blocks of two and one frames. -/
theorem writer_read_roundtrip_witness :
    ∃ w, AudioFileWriter.writeAll (AudioFileWriter.openWriter 8000 1)
        [⟨1, [[0], [1/2]]⟩, ⟨1, [[1]]⟩] = .ok w ∧
      (read_wave w.toWaveFile).2 = 8000 ∧
      (read_wave w.toWaveFile).1.rows.length
        = (([⟨1, [[0], [1/2]]⟩, ⟨1, [[1]]⟩] : List FrameBlock).map
            (fun b => b.rows.length)).sum ∧
      (((read_wave w.toWaveFile).1.rows.length : ℤ)
          - ((([⟨1, [[0], [1/2]]⟩, ⟨1, [[1]]⟩] : List FrameBlock).map
              (fun b => b.rows.length)).sum : ℤ)).natAbs ≤ 1 ∧
      (read_wave w.toWaveFile).1.width = 1 ∧
      ∀ r ∈ (read_wave w.toWaveFile).1.rows, r.length = 1 :=
  writer_read_roundtrip 8000 1 (by decide) [⟨1, [[0], [1/2]]⟩, ⟨1, [[1]]⟩]
    (by decide)

/-! ### Mixer lemmas -/

theorem le_foldl_max (a : ℕ) (l : List ℕ) : a ≤ l.foldl max a := by
  induction l generalizing a with
  | nil => simp
  | cons h t ih => exact le_trans (le_max_left a h) (ih (max a h))

theorem mem_le_foldl_max (x : ℕ) :
    ∀ l : List ℕ, x ∈ l → ∀ a : ℕ, x ≤ l.foldl max a := by
  intro l
  induction l with
  | nil => intro hx; cases hx
  | cons h t ih =>
    intro hx a
    rcases List.mem_cons.mp hx with rfl | hmem
    · exact le_trans (le_max_right a x) (le_foldl_max _ t)
    · exact ih hmem (max a h)

theorem foldl_max_mem :
    ∀ (l : List ℕ) (a : ℕ), l.foldl max a = a ∨ l.foldl max a ∈ l := by
  intro l
  induction l with
  | nil => intro a; exact Or.inl rfl
  | cons h t ih =>
    intro a
    rw [List.foldl_cons]
    rcases ih (max a h) with heq | hmem
    · rcases le_total a h with hle | hle
      · right; rw [heq, max_eq_right hle]; simp
      · left; rw [heq, max_eq_left hle]
    · exact Or.inr (List.mem_cons_of_mem h hmem)

theorem foldl_min_le (a : ℕ) (l : List ℕ) : l.foldl min a ≤ a := by
  induction l generalizing a with
  | nil => simp
  | cons h t ih => exact le_trans (ih (min a h)) (min_le_left a h)

theorem foldl_min_le_mem (x : ℕ) :
    ∀ l : List ℕ, x ∈ l → ∀ a : ℕ, l.foldl min a ≤ x := by
  intro l
  induction l with
  | nil => intro hx; cases hx
  | cons h t ih =>
    intro hx a
    rcases List.mem_cons.mp hx with rfl | hmem
    · exact le_trans (foldl_min_le _ t) (min_le_right a x)
    · exact ih hmem (min a h)

theorem foldl_min_mem :
    ∀ (l : List ℕ) (a : ℕ), l.foldl min a = a ∨ l.foldl min a ∈ l := by
  intro l
  induction l with
  | nil => intro a; exact Or.inl rfl
  | cons h t ih =>
    intro a
    rw [List.foldl_cons]
    rcases ih (min a h) with heq | hmem
    · rcases le_total a h with hle | hle
      · left; rw [heq, min_eq_left hle]
      · right; rw [heq, min_eq_right hle]; simp
    · exact Or.inr (List.mem_cons_of_mem h hmem)

theorem le_listMax (x : ℕ) (xs : List ℕ) (hx : x ∈ xs) : x ≤ listMax xs := by
  cases xs with
  | nil => cases hx
  | cons h t =>
    unfold listMax
    rcases List.mem_cons.mp hx with rfl | hmem
    · exact le_foldl_max x t
    · exact mem_le_foldl_max x t hmem h

theorem listMax_mem (xs : List ℕ) (hne : xs ≠ []) : listMax xs ∈ xs := by
  cases xs with
  | nil => exact absurd rfl hne
  | cons h t =>
    show t.foldl max h ∈ h :: t
    rcases foldl_max_mem t h with heq | hmem
    · rw [heq]; simp
    · exact List.mem_cons_of_mem h hmem

theorem listMin_le (x : ℕ) (xs : List ℕ) (hx : x ∈ xs) : listMin xs ≤ x := by
  cases xs with
  | nil => cases hx
  | cons h t =>
    unfold listMin
    rcases List.mem_cons.mp hx with rfl | hmem
    · exact foldl_min_le x t
    · exact foldl_min_le_mem x t hmem h

theorem listMin_mem (xs : List ℕ) (hne : xs ≠ []) : listMin xs ∈ xs := by
  cases xs with
  | nil => exact absurd rfl hne
  | cons h t =>
    show t.foldl min h ∈ h :: t
    rcases foldl_min_mem t h with heq | hmem
    · rw [heq]; simp
    · exact List.mem_cons_of_mem h hmem

theorem getD_take (l : List ℚ) (n i : ℕ) (d : ℚ) (h : i < n) :
    (l.take n).getD i d = l.getD i d := by
  simp [List.getD_eq_getElem?_getD, List.getElem?_take, h]

theorem flatMap_singleton_rows (l : List ℚ) :
    (l.map (fun q => [q])).flatMap (fun r => r.map toInt16) = l.map toInt16 := by
  induction l with
  | nil => rfl
  | cons x t ih => simp [List.flatMap_cons, ih]

/-- The first column of an `Array2`, as `mix_audio_files` extracts it
(`array[:, 0]` and `arr[:min_length, 0]`). -/
theorem col_resample_array (a : Array2) (sr tsr : ℕ) :
    (resample_array a sr tsr).rows.map (fun r => r.headD 0)
      = linearResampleSpec (a.rows.map (fun r => r.headD 0)) sr tsr := by
  simp only [resample_array, linearResampleSpec]
  split_ifs with h1 h2 h3 <;> simp [List.map_map]

theorem col_ensure_mono (a : Array2)
    (hrect : ∀ r ∈ a.rows, r.length = a.width) :
    (ensure_mono a).rows.map (fun r => r.headD 0)
      = a.rows.map (fun r => r.sum / (r.length : ℚ)) := by
  unfold ensure_mono
  by_cases h1 : a.width = 1
  · rw [if_pos h1]
    refine List.map_congr_left ?_
    intro r hr
    have hrlen : r.length = 1 := by rw [hrect r hr, h1]
    obtain ⟨x, rfl⟩ : ∃ x, r = [x] := by
      cases r with
      | nil => simp at hrlen
      | cons y s =>
        cases s with
        | nil => exact ⟨y, rfl⟩
        | cons z u => simp at hrlen
    simp
  · rw [if_neg h1]
    rw [List.map_map]
    refine List.map_congr_left ?_
    intro r hr
    simp [hrect r hr]

theorem col_read_mono (f : WaveFile) (_hch : 0 < f.channels)
    (hdvd : f.channels ∣ f.samples.length) :
    (ensure_mono (read_wave f).1).rows.map (fun r => r.headD 0) = monoOfSpec f := by
  have hwidthpos : 0 < (if f.channels > 1 then f.channels else 1) := by
    split <;> omega
  have hdvd' : (if f.channels > 1 then f.channels else 1) ∣ f.samples.length := by
    split
    · exact hdvd
    · exact one_dvd _
  obtain ⟨n, hn⟩ := hdvd'
  have hmaplen : (f.samples.map (fun z : ℤ => (z : ℚ) / 32767)).length
      = (if f.channels > 1 then f.channels else 1) * n := by
    rw [List.length_map]; exact hn
  obtain ⟨_, hrect⟩ :=
    chunkExact_spec (if f.channels > 1 then f.channels else 1) hwidthpos n _ hmaplen
  have hread : (read_wave f).1
      = ⟨if f.channels > 1 then f.channels else 1,
          chunkExact (if f.channels > 1 then f.channels else 1)
            (f.samples.map (fun z : ℤ => (z : ℚ) / 32767))⟩ := rfl
  rw [hread, col_ensure_mono _ (fun r hr => hrect r hr)]
  unfold monoOfSpec
  rw [hread]

/-- C3: `mix_audio_files` fails exactly on the empty input list; on every
non-empty list of well-formed wave files it writes exactly one mono file
whose rate is the maximum input rate, whose payload is the 16-bit
quantisation of the pointwise average (divisor = number of inputs) of the
per-file channel-averaged mono downmixes after resampling to the maximum
rate and truncating to the shortest resampled length; a rate-matching input
passes through unresampled, and for a rate-changing resample a zero-length
input yields zero length and a one-sample target yields the first source
sample. -/
theorem mix_audio_files_correct (files : List WaveFile) (hne : files ≠ [])
    (hwf : ∀ f ∈ files, 0 < f.channels ∧ f.channels ∣ f.samples.length) :
    mix_audio_files [] = .error "No audio files supplied for mixing" ∧
    mix_audio_files files
      = .ok ⟨1, maxRateSpec files, (mixedSignalSpec files).map toInt16⟩ ∧
    (∀ f ∈ files, f.sample_rate ≤ maxRateSpec files) ∧
    (∃ f ∈ files, f.sample_rate = maxRateSpec files) ∧
    (∀ m ∈ resampledMonosSpec files, (mixedSignalSpec files).length ≤ m.length) ∧
    (∃ m ∈ resampledMonosSpec files, (mixedSignalSpec files).length = m.length) ∧
    (∀ i, i < (mixedSignalSpec files).length →
      (mixedSignalSpec files).getD i 0
        = ((resampledMonosSpec files).map (fun m => m.getD i 0)).sum
            / (files.length : ℚ)) ∧
    (∀ mono : List ℚ, linearResampleSpec mono (maxRateSpec files)
        (maxRateSpec files) = mono) ∧
    (∀ mono : List ℚ, ∀ sr tsr : ℕ, sr ≠ tsr →
      (mono = [] → linearResampleSpec mono sr tsr = []) ∧
      (targetLengthOf mono.length tsr sr = 1 ∧ mono ≠ [] →
        linearResampleSpec mono sr tsr = [mono.headD 0]) ∧
      (mono ≠ [] → (linearResampleSpec mono sr tsr).length
          = targetLengthOf mono.length tsr sr)) := by
  have hrsne : resampledMonosSpec files ≠ [] := by
    unfold resampledMonosSpec
    cases files with
    | nil => exact absurd rfl hne
    | cons f t => simp
  have hrslen : (resampledMonosSpec files).length = files.length := by
    unfold resampledMonosSpec
    rw [List.length_map]
  refine ⟨rfl, ?_, ?_, ?_, ?_, ?_, ?_, ?_, ?_⟩
  · -- main refinement equality
    have hcol : ∀ f ∈ files,
        (ensure_mono (read_wave f).1).rows.map (fun r => r.headD 0)
          = monoOfSpec f := by
      intro f hf
      exact col_read_mono f (hwf f hf).1 (hwf f hf).2
    have hrates :
        ((files.map (fun p => (ensure_mono (read_wave p).1, (read_wave p).2))).map
          (·.2)) = files.map (·.sample_rate) := by
      rw [List.map_map]
      rfl
    have hmr : listMax (files.map (·.sample_rate)) = maxRateSpec files := rfl
    have hRES :
        ((files.map (fun p => (ensure_mono (read_wave p).1, (read_wave p).2))).map
            (fun e => resample_array e.1 e.2 (maxRateSpec files))).map
            (fun a => a.rows.map (fun r => r.headD 0))
          = files.map (fun f =>
              linearResampleSpec (monoOfSpec f) f.sample_rate (maxRateSpec files)) := by
      rw [List.map_map, List.map_map]
      refine List.map_congr_left ?_
      intro f hf
      show (resample_array (ensure_mono (read_wave f).1) (read_wave f).2
          (maxRateSpec files)).rows.map (fun r => r.headD 0) = _
      rw [col_resample_array, hcol f hf]
      rfl
    have hLEN :
        ((files.map (fun p => (ensure_mono (read_wave p).1, (read_wave p).2))).map
            (fun e => resample_array e.1 e.2 (maxRateSpec files))).map
            (fun a => a.rows.length)
          = (files.map (fun f =>
              linearResampleSpec (monoOfSpec f) f.sample_rate
                (maxRateSpec files))).map List.length := by
      rw [← hRES]
      simp only [List.map_map]
      refine List.map_congr_left ?_
      intro f _
      show (resample_array (ensure_mono (read_wave f).1) (read_wave f).2
          (maxRateSpec files)).rows.length
        = ((resample_array (ensure_mono (read_wave f).1) (read_wave f).2
            (maxRateSpec files)).rows.map (fun r => r.headD 0)).length
      rw [List.length_map]
    have hnonempty :
        ((files.map (fun p => (ensure_mono (read_wave p).1, (read_wave p).2))).isEmpty)
          = false := by
      cases files with
      | nil => exact absurd rfl hne
      | cons f t => rfl
    simp only [mix_audio_files]
    rw [if_neg (by simp [hnonempty])]
    rw [hrates, hmr]
    unfold write_wave
    rw [flatMap_singleton_rows]
    simp only [mixedSignalSpec, resampledMonosSpec]
    refine congrArg Except.ok ?_
    rw [hLEN]
    congr 1
    congr 1
    refine List.map_congr_left ?_
    intro i hi
    have him : i < listMin ((files.map (fun f =>
        linearResampleSpec (monoOfSpec f) f.sample_rate
          (maxRateSpec files))).map List.length) :=
      List.mem_range.mp hi
    refine congrArg₂ (fun (s : ℚ) (n : ℚ) => s / n) ?_ ?_
    · refine congrArg List.sum ?_
      rw [← hRES]
      simp only [List.map_map]
      refine List.map_congr_left ?_
      intro e _
      simp only [Function.comp_def]
      have him' : i < listMin (List.map (fun x =>
          ((resample_array (ensure_mono (read_wave x).1) (read_wave x).2
            (maxRateSpec files)).rows.map (fun r => r.headD 0)).length) files) := by
        refine lt_of_lt_of_eq him (congrArg listMin ?_)
        rw [← hRES]
        simp only [List.map_map, Function.comp_def]
      rw [List.map_take, getD_take _ _ _ _ him']
    · simp only [List.length_map]
  · intro f hf
    exact le_listMax f.sample_rate _ (List.mem_map_of_mem (·.sample_rate) hf)
  · have hmem := listMax_mem (files.map (·.sample_rate)) (by
      cases files with
      | nil => exact absurd rfl hne
      | cons f t => simp)
    obtain ⟨f, hf, hfr⟩ := List.mem_map.mp hmem
    exact ⟨f, hf, hfr⟩
  · intro m hm
    unfold mixedSignalSpec
    rw [List.length_map, List.length_range]
    exact listMin_le m.length _ (List.mem_map_of_mem List.length hm)
  · have hmem := listMin_mem ((resampledMonosSpec files).map List.length)
      (by simpa using hrsne)
    obtain ⟨m, hm, hml⟩ := List.mem_map.mp hmem
    refine ⟨m, hm, ?_⟩
    unfold mixedSignalSpec
    rw [List.length_map, List.length_range, hml]
  · intro i hi
    simp only [mixedSignalSpec] at hi ⊢
    rw [List.length_map, List.length_range] at hi
    rw [List.getD_eq_getElem?_getD, List.getElem?_map, List.getElem?_range hi]
    simp [hrslen]
  · intro mono
    unfold linearResampleSpec
    simp
  · intro mono sr tsr hsr
    refine ⟨?_, ?_, ?_⟩
    · intro hm
      subst hm
      unfold linearResampleSpec
      rw [if_neg hsr]
      simp
    · rintro ⟨htl, hm⟩
      unfold linearResampleSpec
      rw [if_neg hsr, if_neg (by simpa using hm), if_pos htl]
    · intro hm
      unfold linearResampleSpec
      rw [if_neg hsr, if_neg (by simpa using hm)]
      by_cases htl : targetLengthOf mono.length tsr sr = 1
      · rw [if_pos htl, htl]
        rfl
      · rw [if_neg htl, List.length_map, List.length_range]

/-- Witness for `mix_audio_files_correct` at a concrete one-file input. -/
theorem mix_audio_files_correct_witness :
    mix_audio_files [] = .error "No audio files supplied for mixing" ∧
    mix_audio_files [⟨1, 2, [32767]⟩]
      = .ok ⟨1, maxRateSpec [⟨1, 2, [32767]⟩],
          (mixedSignalSpec [⟨1, 2, [32767]⟩]).map toInt16⟩ ∧
    (∀ f ∈ ([⟨1, 2, [32767]⟩] : List WaveFile),
      f.sample_rate ≤ maxRateSpec [⟨1, 2, [32767]⟩]) ∧
    (∃ f ∈ ([⟨1, 2, [32767]⟩] : List WaveFile),
      f.sample_rate = maxRateSpec [⟨1, 2, [32767]⟩]) ∧
    (∀ m ∈ resampledMonosSpec [⟨1, 2, [32767]⟩],
      (mixedSignalSpec [⟨1, 2, [32767]⟩]).length ≤ m.length) ∧
    (∃ m ∈ resampledMonosSpec [⟨1, 2, [32767]⟩],
      (mixedSignalSpec [⟨1, 2, [32767]⟩]).length = m.length) ∧
    (∀ i, i < (mixedSignalSpec [⟨1, 2, [32767]⟩]).length →
      (mixedSignalSpec [⟨1, 2, [32767]⟩]).getD i 0
        = ((resampledMonosSpec [⟨1, 2, [32767]⟩]).map (fun m => m.getD i 0)).sum
            / (([⟨1, 2, [32767]⟩] : List WaveFile).length : ℚ)) ∧
    (∀ mono : List ℚ, linearResampleSpec mono (maxRateSpec [⟨1, 2, [32767]⟩])
        (maxRateSpec [⟨1, 2, [32767]⟩]) = mono) ∧
    (∀ mono : List ℚ, ∀ sr tsr : ℕ, sr ≠ tsr →
      (mono = [] → linearResampleSpec mono sr tsr = []) ∧
      (targetLengthOf mono.length tsr sr = 1 ∧ mono ≠ [] →
        linearResampleSpec mono sr tsr = [mono.headD 0]) ∧
      (mono ≠ [] → (linearResampleSpec mono sr tsr).length
          = targetLengthOf mono.length tsr sr)) :=
  mix_audio_files_correct [⟨1, 2, [32767]⟩] (by decide) (by decide)

/-! ### Parser lemmas and theorems -/

theorem normalizedDevice_of_scheme (g : GuessFun) (device : String)
    (hscheme : (urlsplitLite (pyStrip device)).scheme ≠ "") :
    normalizedDevice g device = pyStrip device := by
  simp only [normalizedDevice]
  rw [if_neg hscheme]

/-- C9: an explicit format scheme makes `parse_ffmpeg_device` independent
of the platform guesser (the guesser is never consulted); when no scheme
is present and the guesser produces nothing, the parser fails with the
scheme `CaptureError`; and no successful parse ever carries an empty
target. -/
theorem parse_guesser_contract (g₁ g₂ : GuessFun) (device : String)
    (dsr dch : ℤ)
    (hscheme : (urlsplitLite (pyStrip device)).scheme ≠ "") :
    parse_ffmpeg_device g₁ device dsr dch
      = parse_ffmpeg_device g₂ device dsr dch ∧
    (∀ g : GuessFun, ∀ d : String, d ≠ "" →
      (urlsplitLite (pyStrip d)).scheme = "" →
      guessDeviceSpec g (pyStrip d) = none →
      parse_ffmpeg_device g d dsr dch = .captureError schemeErrorMsg) ∧
    (∀ g : GuessFun, ∀ d : String, ∀ spec : FFmpegDeviceSpec,
      parse_ffmpeg_device g d dsr dch = .ok spec → spec.input_target ≠ "") := by
  refine ⟨?_, ?_, ?_⟩
  · unfold parse_ffmpeg_device effSplit
    rw [normalizedDevice_of_scheme g₁ device hscheme,
      normalizedDevice_of_scheme g₂ device hscheme]
  · intro g d hd hself hguess
    have hsp : effSplit g d = urlsplitLite (pyStrip d) := by
      simp only [effSplit, normalizedDevice]
      rw [if_pos hself, hguess]
    simp only [parse_ffmpeg_device, hsp]
    rw [if_neg hd, if_pos hself]
  · intro g d spec hok
    simp only [parse_ffmpeg_device] at hok
    split at hok
    · cases hok
    · split at hok
      · cases hok
      · split at hok
        · cases hok
        · rename_i htarget
          split at hok
          · cases hok
          · cases hok
          · split at hok
            · cases hok
            · split at hok
              · cases hok
              · split at hok
                · cases hok
                · split at hok
                  · cases hok
                  · cases hok
                    exact htarget

/-- Witness for `parse_guesser_contract` at an explicit-scheme device
string and two concrete guessers. -/
theorem parse_guesser_contract_witness :
    parse_ffmpeg_device (fun _ => none) "pulse:dev?channels=2" 16000 1
      = parse_ffmpeg_device (fun s => some ("dshow:" ++ s))
          "pulse:dev?channels=2" 16000 1 ∧
    (∀ g : GuessFun, ∀ d : String, d ≠ "" →
      (urlsplitLite (pyStrip d)).scheme = "" →
      guessDeviceSpec g (pyStrip d) = none →
      parse_ffmpeg_device g d 16000 1 = .captureError schemeErrorMsg) ∧
    (∀ g : GuessFun, ∀ d : String, ∀ spec : FFmpegDeviceSpec,
      parse_ffmpeg_device g d 16000 1 = .ok spec → spec.input_target ≠ "") :=
  parse_guesser_contract (fun _ => none) (fun s => some ("dshow:" ++ s))
    "pulse:dev?channels=2" 16000 1 (by decide)

theorem pythonInt_blank : pythonInt "" = none := by decide

theorem pythonFloat_blank : pythonFloat "" = none := by decide

theorem not_eq_of_startsWith {k p : String} (h : strStartsWith k p = true)
    (key : String) (hkey : strStartsWith key p = false) : k ≠ key := by
  intro he
  rw [he, hkey] at h
  cases h

theorem badCaptureB_eq_pairFailB (kv : String × String) :
    badCaptureB kv = pairFailB kv := by
  obtain ⟨k, v⟩ := kv
  unfold badCaptureB classifyPair
  by_cases h1 : k = "sample_rate" ∧ v ≠ ""
  · rw [if_pos h1]
    obtain ⟨rfl, hv⟩ := h1
    rcases hint : pythonInt v with _ | n <;>
      simp [pairFailB, numericIntKeys, recognizedKey, hint, hv]
  · rw [if_neg h1]
    by_cases h2 : k = "channels" ∧ v ≠ ""
    · rw [if_pos h2]
      obtain ⟨rfl, hv⟩ := h2
      rcases hint : pythonInt v with _ | n <;>
        simp [pairFailB, numericIntKeys, recognizedKey, hint, hv]
    · rw [if_neg h2]
      by_cases h3 : k = "sample_fmt" ∧ v ≠ ""
      · rw [if_pos h3]
        obtain ⟨rfl, hv⟩ := h3
        simp [pairFailB, numericIntKeys, recognizedKey, hv]
      · rw [if_neg h3]
        by_cases h4 : k = "chunk_frames" ∧ v ≠ ""
        · rw [if_pos h4]
          obtain ⟨rfl, hv⟩ := h4
          rcases hint : pythonInt v with _ | n <;>
            simp [pairFailB, numericIntKeys, recognizedKey, hint, hv]
        · rw [if_neg h4]
          by_cases h5 : k = "chunk_ms" ∧ v ≠ ""
          · rw [if_pos h5]
            obtain ⟨rfl, hv⟩ := h5
            rcases hfl : pythonFloat v with _ | x <;>
              simp [pairFailB, numericIntKeys, recognizedKey, hfl, hv]
          · rw [if_neg h5]
            by_cases h6 : k = "args" ∧ v ≠ ""
            · rw [if_pos h6]
              obtain ⟨rfl, hv⟩ := h6
              rcases hsh : shlexSplit v with _ | ts <;>
                simp [pairFailB, numericIntKeys, recognizedKey, hv]
            · rw [if_neg h6]
              by_cases h7 : k = "out_args" ∧ v ≠ ""
              · rw [if_pos h7]
                obtain ⟨rfl, hv⟩ := h7
                rcases hsh : shlexSplit v with _ | ts <;>
                  simp [pairFailB, numericIntKeys, recognizedKey, hv]
              · rw [if_neg h7]
                by_cases h8 : strStartsWith k "opt_" = true
                · rw [if_pos h8]
                  have e1 := not_eq_of_startsWith h8 "sample_rate" (by decide)
                  have e2 := not_eq_of_startsWith h8 "channels" (by decide)
                  have e3 := not_eq_of_startsWith h8 "sample_fmt" (by decide)
                  have e4 := not_eq_of_startsWith h8 "chunk_frames" (by decide)
                  have e5 := not_eq_of_startsWith h8 "chunk_ms" (by decide)
                  have e6 := not_eq_of_startsWith h8 "args" (by decide)
                  have e7 := not_eq_of_startsWith h8 "out_args" (by decide)
                  by_cases hv : v ≠ "" <;>
                    [rw [if_pos hv]; rw [if_neg hv]] <;>
                    simp [pairFailB, numericIntKeys, recognizedKey, h8,
                      e1, e2, e3, e4, e5, e6, e7]
                · rw [if_neg h8]
                  by_cases h9 : strStartsWith k "flag_" = true
                  · rw [if_pos h9]
                    have e1 := not_eq_of_startsWith h9 "sample_rate" (by decide)
                    have e2 := not_eq_of_startsWith h9 "channels" (by decide)
                    have e3 := not_eq_of_startsWith h9 "sample_fmt" (by decide)
                    have e4 := not_eq_of_startsWith h9 "chunk_frames" (by decide)
                    have e5 := not_eq_of_startsWith h9 "chunk_ms" (by decide)
                    have e6 := not_eq_of_startsWith h9 "args" (by decide)
                    have e7 := not_eq_of_startsWith h9 "out_args" (by decide)
                    simp [pairFailB, numericIntKeys, recognizedKey, h9,
                      e1, e2, e3, e4, e5, e6, e7]
                  · rw [if_neg h9]
                    by_cases h10 : strStartsWith k "out_opt_" = true
                    · rw [if_pos h10]
                      have e1 := not_eq_of_startsWith h10 "sample_rate" (by decide)
                      have e2 := not_eq_of_startsWith h10 "channels" (by decide)
                      have e3 := not_eq_of_startsWith h10 "sample_fmt" (by decide)
                      have e4 := not_eq_of_startsWith h10 "chunk_frames" (by decide)
                      have e5 := not_eq_of_startsWith h10 "chunk_ms" (by decide)
                      have e6 := not_eq_of_startsWith h10 "args" (by decide)
                      have e7 := not_eq_of_startsWith h10 "out_args" (by decide)
                      by_cases hv : v ≠ "" <;>
                        [rw [if_pos hv]; rw [if_neg hv]] <;>
                        simp [pairFailB, numericIntKeys, recognizedKey, h10,
                          e1, e2, e3, e4, e5, e6, e7]
                    · rw [if_neg h10]
                      by_cases h11 : strStartsWith k "out_flag_" = true
                      · rw [if_pos h11]
                        have e1 := not_eq_of_startsWith h11 "sample_rate" (by decide)
                        have e2 := not_eq_of_startsWith h11 "channels" (by decide)
                        have e3 := not_eq_of_startsWith h11 "sample_fmt" (by decide)
                        have e4 := not_eq_of_startsWith h11 "chunk_frames" (by decide)
                        have e5 := not_eq_of_startsWith h11 "chunk_ms" (by decide)
                        have e6 := not_eq_of_startsWith h11 "args" (by decide)
                        have e7 := not_eq_of_startsWith h11 "out_args" (by decide)
                        simp [pairFailB, numericIntKeys, recognizedKey, h11,
                          e1, e2, e3, e4, e5, e6, e7]
                      · rw [if_neg h11]
                        by_cases h12 : k = ""
                        · rw [if_pos h12]
                          subst h12
                          simp [pairFailB, numericIntKeys, recognizedKey]
                        · rw [if_neg h12]
                          -- the catch-all arm: an unknown option key
                          symm
                          simp only [pairFailB, Bool.or_eq_true, Bool.and_eq_true,
                            decide_eq_true_eq, Option.isNone_iff_eq_none,
                            Bool.not_eq_true']
                          by_cases hrec : recognizedKey k = true
                          · rw [recognizedKey] at hrec
                            simp only [Bool.or_eq_true, decide_eq_true_eq] at hrec
                            rcases hrec with ((((hmem | hA) | hB) | hC) | hD)
                            · have hv : v = "" := by
                                simp only [List.mem_cons, List.not_mem_nil,
                                  or_false] at hmem
                                rcases hmem with rfl | rfl | rfl | rfl | rfl | rfl | rfl
                                · by_contra hv2; exact h1 ⟨rfl, hv2⟩
                                · by_contra hv2; exact h2 ⟨rfl, hv2⟩
                                · by_contra hv2; exact h3 ⟨rfl, hv2⟩
                                · by_contra hv2; exact h4 ⟨rfl, hv2⟩
                                · by_contra hv2; exact h5 ⟨rfl, hv2⟩
                                · by_contra hv2; exact h6 ⟨rfl, hv2⟩
                                · by_contra hv2; exact h7 ⟨rfl, hv2⟩
                              subst hv
                              simp only [List.mem_cons, List.not_mem_nil,
                                or_false] at hmem
                              rcases hmem with rfl | rfl | rfl | rfl | rfl | rfl | rfl
                              · exact Or.inl (Or.inl (Or.inl ⟨by decide, pythonInt_blank⟩))
                              · exact Or.inl (Or.inl (Or.inl ⟨by decide, pythonInt_blank⟩))
                              · exact Or.inr ⟨by decide, rfl⟩
                              · exact Or.inl (Or.inl (Or.inl ⟨by decide, pythonInt_blank⟩))
                              · exact Or.inl (Or.inl (Or.inr ⟨rfl, pythonFloat_blank⟩))
                              · exact Or.inr ⟨by decide, rfl⟩
                              · exact Or.inr ⟨by decide, rfl⟩
                            · exact absurd hA h8
                            · exact absurd hB h9
                            · exact absurd hC h10
                            · exact absurd hD h11
                          · exact Or.inl (Or.inr ⟨h12, by simpa using hrec⟩)

theorem processPair_cases (st : OptState) (kv : String × String) :
    (badCaptureB kv = true → ∃ m, processPair st kv = .captureError m) ∧
    (badPyB kv = true → ∃ m, processPair st kv = .pyError m) ∧
    (badCaptureB kv = false → badPyB kv = false →
      ∃ st', processPair st kv = .ok st') := by
  unfold processPair badCaptureB badPyB
  rcases hcl : classifyPair kv.1 kv.2 <;> simp [applyPairAction]

theorem processPair_ok_state (st : OptState) (kv : String × String)
    (st' : OptState) (h : processPair st kv = .ok st') :
    st'.sample_rate = (if kv.1 = "sample_rate" ∧ kv.2 ≠ "" then
      (pythonInt kv.2).getD st.sample_rate else st.sample_rate) ∧
    st'.channels = (if kv.1 = "channels" ∧ kv.2 ≠ "" then
      (pythonInt kv.2).getD st.channels else st.channels) ∧
    st'.sample_format = (if kv.1 = "sample_fmt" ∧ kv.2 ≠ "" then
      lowerStr kv.2 else st.sample_format) := by
  obtain ⟨k, v⟩ := kv
  unfold processPair classifyPair at h
  by_cases h1 : k = "sample_rate" ∧ v ≠ ""
  · rw [if_pos h1] at h
    obtain ⟨rfl, hv⟩ := h1
    rcases hint : pythonInt v with _ | n <;> rw [hint] at h <;>
      simp only [applyPairAction] at h
    · cases h
    · cases h
      simp [hv, hint]
  · rw [if_neg h1] at h
    by_cases h2 : k = "channels" ∧ v ≠ ""
    · rw [if_pos h2] at h
      obtain ⟨rfl, hv⟩ := h2
      rcases hint : pythonInt v with _ | n <;> rw [hint] at h <;>
        simp only [applyPairAction] at h
      · cases h
      · cases h
        simp [hv, hint]
    · rw [if_neg h2] at h
      by_cases h3 : k = "sample_fmt" ∧ v ≠ ""
      · rw [if_pos h3] at h
        obtain ⟨rfl, hv⟩ := h3
        simp only [applyPairAction] at h
        cases h
        simp [hv]
      · rw [if_neg h3] at h
        by_cases h4 : k = "chunk_frames" ∧ v ≠ ""
        · rw [if_pos h4] at h
          obtain ⟨rfl, hv⟩ := h4
          rcases hint : pythonInt v with _ | n <;> rw [hint] at h <;>
            simp only [applyPairAction] at h
          · cases h
          · cases h
            simp
        · rw [if_neg h4] at h
          by_cases h5 : k = "chunk_ms" ∧ v ≠ ""
          · rw [if_pos h5] at h
            obtain ⟨rfl, hv⟩ := h5
            rcases hfl : pythonFloat v with _ | x <;> rw [hfl] at h <;>
              simp only [applyPairAction] at h
            · cases h
            · cases h
              simp
          · rw [if_neg h5] at h
            by_cases h6 : k = "args" ∧ v ≠ ""
            · rw [if_pos h6] at h
              obtain ⟨rfl, hv⟩ := h6
              rcases hsh : shlexSplit v with _ | ts <;> rw [hsh] at h <;>
                simp only [applyPairAction] at h
              · cases h
              · cases h
                simp
            · rw [if_neg h6] at h
              by_cases h7 : k = "out_args" ∧ v ≠ ""
              · rw [if_pos h7] at h
                obtain ⟨rfl, hv⟩ := h7
                rcases hsh : shlexSplit v with _ | ts <;> rw [hsh] at h <;>
                  simp only [applyPairAction] at h
                · cases h
                · cases h
                  simp
              · rw [if_neg h7] at h
                by_cases h8 : strStartsWith k "opt_" = true
                · rw [if_pos h8] at h
                  have e1 := not_eq_of_startsWith h8 "sample_rate" (by decide)
                  have e2 := not_eq_of_startsWith h8 "channels" (by decide)
                  have e3 := not_eq_of_startsWith h8 "sample_fmt" (by decide)
                  by_cases hv : v ≠ "" <;>
                    [rw [if_pos hv] at h; rw [if_neg hv] at h] <;>
                    simp only [applyPairAction] at h <;> cases h <;>
                    simp [e1, e2, e3]
                · rw [if_neg h8] at h
                  by_cases h9 : strStartsWith k "flag_" = true
                  · rw [if_pos h9] at h
                    have e1 := not_eq_of_startsWith h9 "sample_rate" (by decide)
                    have e2 := not_eq_of_startsWith h9 "channels" (by decide)
                    have e3 := not_eq_of_startsWith h9 "sample_fmt" (by decide)
                    simp only [applyPairAction] at h
                    cases h
                    simp [e1, e2, e3]
                  · rw [if_neg h9] at h
                    by_cases h10 : strStartsWith k "out_opt_" = true
                    · rw [if_pos h10] at h
                      have e1 := not_eq_of_startsWith h10 "sample_rate" (by decide)
                      have e2 := not_eq_of_startsWith h10 "channels" (by decide)
                      have e3 := not_eq_of_startsWith h10 "sample_fmt" (by decide)
                      by_cases hv : v ≠ "" <;>
                        [rw [if_pos hv] at h; rw [if_neg hv] at h] <;>
                        simp only [applyPairAction] at h <;> cases h <;>
                        simp [e1, e2, e3]
                    · rw [if_neg h10] at h
                      by_cases h11 : strStartsWith k "out_flag_" = true
                      · rw [if_pos h11] at h
                        have e1 := not_eq_of_startsWith h11 "sample_rate" (by decide)
                        have e2 := not_eq_of_startsWith h11 "channels" (by decide)
                        have e3 := not_eq_of_startsWith h11 "sample_fmt" (by decide)
                        simp only [applyPairAction] at h
                        cases h
                        simp [e1, e2, e3]
                      · rw [if_neg h11] at h
                        by_cases h12 : k = ""
                        · rw [if_pos h12] at h
                          subst h12
                          simp only [applyPairAction] at h
                          cases h
                          simp
                        · rw [if_neg h12] at h
                          simp only [applyPairAction] at h
                          cases h

theorem processPairs_captureError_bad :
    ∀ (pairs : List (String × String)) (st : OptState) (m : String),
      processPairs st pairs = .captureError m →
      ∃ kv ∈ pairs, badCaptureB kv = true := by
  intro pairs
  induction pairs with
  | nil => intro st m h; cases h
  | cons kv rest ih =>
    intro st m h
    unfold processPairs at h
    rcases hp : processPair st kv with st1 | m1 | m1 <;> rw [hp] at h
    · obtain ⟨kv', hkv', hbad⟩ := ih st1 m h
      exact ⟨kv', by simp [hkv'], hbad⟩
    · refine ⟨kv, by simp, ?_⟩
      by_cases bc : badCaptureB kv = true
      · exact bc
      · by_cases bp : badPyB kv = true
        · obtain ⟨m2, hm2⟩ := (processPair_cases st kv).2.1 bp
          rw [hp] at hm2
          cases hm2
        · obtain ⟨st2, hst2⟩ := (processPair_cases st kv).2.2
            (by simpa using bc) (by simpa using bp)
          rw [hp] at hst2
          cases hst2
    · cases h

theorem processPairs_ok_of_good :
    ∀ (pairs : List (String × String)) (st : OptState),
      (∀ kv ∈ pairs, badCaptureB kv = false ∧ badPyB kv = false) →
      ∃ st', processPairs st pairs = .ok st' := by
  intro pairs
  induction pairs with
  | nil => intro st _; exact ⟨st, rfl⟩
  | cons kv rest ih =>
    intro st hgood
    obtain ⟨bc, bp⟩ := hgood kv (by simp)
    obtain ⟨st1, hst1⟩ := (processPair_cases st kv).2.2 bc bp
    obtain ⟨st', hst'⟩ := ih st1 (fun kv' hkv' => hgood kv' (by simp [hkv']))
    refine ⟨st', ?_⟩
    unfold processPairs
    rw [hst1]
    exact hst'

theorem processPairs_not_ok_of_bad :
    ∀ (pairs : List (String × String)) (st : OptState),
      (∃ kv ∈ pairs, badCaptureB kv = true) →
      ∀ st' : OptState, processPairs st pairs ≠ .ok st' := by
  intro pairs
  induction pairs with
  | nil => rintro st ⟨kv, hkv, _⟩; cases hkv
  | cons kv0 rest ih =>
    rintro st ⟨kv, hkv, hbad⟩ st' h
    unfold processPairs at h
    rcases List.mem_cons.mp hkv with rfl | hmem
    · obtain ⟨m, hm⟩ := (processPair_cases st kv).1 hbad
      rw [hm] at h
      cases h
    · rcases hp : processPair st kv0 with st1 | m1 | m1 <;> rw [hp] at h
      · exact ih st1 ⟨kv, hmem, hbad⟩ st' h
      · cases h
      · cases h

theorem processPairs_ok_state :
    ∀ (pairs : List (String × String)) (st st' : OptState),
      processPairs st pairs = .ok st' →
      st'.sample_rate = resolvedRate pairs st.sample_rate ∧
      st'.channels = resolvedChannels pairs st.channels ∧
      st'.sample_format = pairs.foldl (fun acc kv =>
        if kv.1 = "sample_fmt" ∧ kv.2 ≠ "" then lowerStr kv.2 else acc)
        st.sample_format := by
  intro pairs
  induction pairs with
  | nil =>
    intro st st' h
    cases h
    exact ⟨rfl, rfl, rfl⟩
  | cons kv rest ih =>
    intro st st' h
    unfold processPairs at h
    rcases hp : processPair st kv with st1 | m1 | m1 <;> rw [hp] at h
    · obtain ⟨hr, hc, hf⟩ := processPair_ok_state st kv st1 hp
      obtain ⟨hr', hc', hf'⟩ := ih st1 st' h
      refine ⟨?_, ?_, ?_⟩
      · rw [hr']
        unfold resolvedRate
        rw [List.foldl_cons, ← hr]
      · rw [hc']
        unfold resolvedChannels
        rw [List.foldl_cons, ← hc]
      · rw [hf']
        rw [List.foldl_cons, ← hf]
    · cases h
    · cases h

theorem foldl_skip_of_no_key {α : Type} (upd : α → (String × String) → α)
    (keyOf : (String × String) → Prop)
    (hupd : ∀ (acc : α) (kv : String × String), ¬ keyOf kv → upd acc kv = acc) :
    ∀ (pairs : List (String × String)) (d : α),
      (∀ kv ∈ pairs, ¬ keyOf kv) → pairs.foldl upd d = d := by
  intro pairs
  induction pairs with
  | nil => intro d _; rfl
  | cons kv rest ih =>
    intro d hnone
    rw [List.foldl_cons, hupd d kv (hnone kv (by simp))]
    exact ih d (fun kv' hkv' => hnone kv' (by simp [hkv']))

theorem any_eq_false_of_all {α : Type} (l : List α) (p : α → Bool)
    (h : ∀ x ∈ l, p x = false) : l.any p = false := by
  rw [← Bool.not_eq_true, List.any_eq_true]
  rintro ⟨x, hx, hpx⟩
  rw [h x hx] at hpx
  cases hpx

theorem amended_of_pairFail (g : GuessFun) (device : String) (dsr dch : ℤ)
    (kv : String × String) (hmem : kv ∈ parse_qsl (effSplit g device).query)
    (hbad : pairFailB kv = true) :
    amendedFailureB g device dsr dch = true := by
  unfold pairFailB at hbad
  simp only [Bool.or_eq_true] at hbad
  simp only [amendedFailureB, claimedFailureB, Bool.or_eq_true, List.any_eq_true]
  rcases hbad with ((hb | hb) | hb) | hb
  · exact Or.inl (Or.inl (Or.inl (Or.inl (Or.inl (Or.inl
      (Or.inr ⟨kv, hmem, hb⟩))))))
  · exact Or.inl (Or.inl (Or.inl (Or.inl (Or.inl (Or.inr ⟨kv, hmem, hb⟩)))))
  · exact Or.inl (Or.inl (Or.inl (Or.inl (Or.inr ⟨kv, hmem, hb⟩))))
  · exact Or.inr ⟨kv, hmem, hb⟩

theorem parse_capture_implies_amended (g : GuessFun) (device : String)
    (dsr dch : ℤ) (m : String)
    (h : parse_ffmpeg_device g device dsr dch = .captureError m) :
    amendedFailureB g device dsr dch = true := by
  simp only [parse_ffmpeg_device] at h
  split at h
  · rename_i hd
    unfold amendedFailureB claimedFailureB
    simp [hd]
  · rename_i hd
    split at h
    · rename_i hs
      unfold amendedFailureB claimedFailureB
      simp [hs]
    · rename_i hs
      split at h
      · rename_i ht
        unfold amendedFailureB claimedFailureB
        simp [ht]
      · rename_i ht
        split at h
        · rename_i m1 hpp
          obtain ⟨kv, hmem, hbad⟩ := processPairs_captureError_bad _ _ _ hpp
          rw [badCaptureB_eq_pairFailB] at hbad
          exact amended_of_pairFail g device dsr dch kv hmem hbad
        · rename_i m1 hpp
          cases h
        · rename_i st hpp
          split at h
          · rename_i hrate
            obtain ⟨hr, _, _⟩ := processPairs_ok_state _ _ _ hpp
            rw [hr] at hrate
            unfold amendedFailureB claimedFailureB
            simp [hrate]
          · rename_i hrate
            split at h
            · rename_i hch
              obtain ⟨_, hc, _⟩ := processPairs_ok_state _ _ _ hpp
              rw [hc] at hch
              unfold amendedFailureB claimedFailureB
              simp [hch]
            · rename_i hch
              split at h
              · rename_i m2 hchunk
                cases h
              · rename_i chunk hchunk
                split at h
                · rename_i hfmt
                  obtain ⟨_, _, hf⟩ := processPairs_ok_state _ _ _ hpp
                  rw [hf] at hfmt
                  unfold amendedFailureB claimedFailureB
                  have : lowerStr (resolvedFmtRaw
                      (parse_qsl (effSplit g device).query)) ∉ supportedFormats := hfmt
                  simp [this]
                · cases h

theorem parse_ok_implies_not_amended (g : GuessFun) (device : String)
    (dsr dch : ℤ) (spec : FFmpegDeviceSpec)
    (h : parse_ffmpeg_device g device dsr dch = .ok spec) :
    amendedFailureB g device dsr dch = false := by
  simp only [parse_ffmpeg_device] at h
  split at h
  · cases h
  · rename_i hd
    split at h
    · cases h
    · rename_i hs
      split at h
      · cases h
      · rename_i ht
        split at h
        · cases h
        · cases h
        · rename_i st hpp
          split at h
          · cases h
          · rename_i hrate
            split at h
            · cases h
            · rename_i hch
              split at h
              · cases h
              · rename_i chunk hchunk
                split at h
                · cases h
                · rename_i hfmt
                  -- collect the negated conditions and the loop facts
                  obtain ⟨hr, hc, hf⟩ := processPairs_ok_state _ _ _ hpp
                  have hnobad : ∀ kv ∈ parse_qsl (effSplit g device).query,
                      badCaptureB kv = false := by
                    intro kv hkv
                    by_contra hbad
                    exact processPairs_not_ok_of_bad _ _
                      ⟨kv, hkv, by simpa using hbad⟩ st hpp
                  have hnofail : ∀ kv ∈ parse_qsl (effSplit g device).query,
                      pairFailB kv = false := by
                    intro kv hkv
                    rw [← badCaptureB_eq_pairFailB]
                    exact hnobad kv hkv
                  rw [hr] at hrate
                  rw [hc] at hch
                  rw [hf] at hfmt
                  have hfmt' : lowerStr (resolvedFmtRaw
                      (parse_qsl (effSplit g device).query)) ∈ supportedFormats := by
                    by_contra hcon
                    exact hfmt hcon
                  have a1 := any_eq_false_of_all (parse_qsl (effSplit g device).query)
                    (fun kv => decide (kv.1 ∈ numericIntKeys) && (pythonInt kv.2).isNone)
                    (fun kv hkv => by
                      have := hnofail kv hkv
                      unfold pairFailB at this
                      simp only [Bool.or_eq_false_iff] at this
                      exact this.1.1.1)
                  have a2 := any_eq_false_of_all (parse_qsl (effSplit g device).query)
                    (fun kv => decide (kv.1 = "chunk_ms") && (pythonFloat kv.2).isNone)
                    (fun kv hkv => by
                      have := hnofail kv hkv
                      unfold pairFailB at this
                      simp only [Bool.or_eq_false_iff] at this
                      exact this.1.1.2)
                  have a3 := any_eq_false_of_all (parse_qsl (effSplit g device).query)
                    (fun kv => decide (kv.1 ≠ "") && !(recognizedKey kv.1))
                    (fun kv hkv => by
                      have := hnofail kv hkv
                      unfold pairFailB at this
                      simp only [Bool.or_eq_false_iff] at this
                      exact this.1.2)
                  have a4 := any_eq_false_of_all (parse_qsl (effSplit g device).query)
                    (fun kv => decide (kv.1 ∈ (["sample_fmt", "args", "out_args"] : List String))
                      && decide (kv.2 = ""))
                    (fun kv hkv => by
                      have := hnofail kv hkv
                      unfold pairFailB at this
                      simp only [Bool.or_eq_false_iff] at this
                      exact this.2)
                  simp only [amendedFailureB, claimedFailureB]
                  rw [a1, a2, a3, a4]
                  simp [hd, hs, ht, hrate, hch, hfmt']

/-- C4 counterexample: the device string "pulse:dev?args=" meets none of the
claim\x27s enumerated failure conditions — the key `args` is a recognized,
non-numeric option, the scheme and target are non-empty, and the resolved
rate, channels and sample format are all fine — yet `parse_ffmpeg_device`
rejects it with a `CaptureError`, because the code treats a recognized plain
option key carrying a blank value as an unknown option. -/
theorem parse_blank_args_counterexample :
    parse_ffmpeg_device (fun _ => none) "pulse:dev?args=" 16000 1
      = .captureError "Unknown FFmpeg device option: args" ∧
    claimedFailureB (fun _ => none) "pulse:dev?args=" 16000 1 = false := by
  constructor
  · rfl
  · rfl

/-- C4 (amended): provided the parse raises no uncaught non-CaptureError
exception (`.pyError`: an unbalanced quote inside `args`/`out_args`, or a
non-finite `chunk_ms`), `parse_ffmpeg_device` fails with a `CaptureError`
exactly when the amended condition holds: the device string is empty, no
format/scheme can be determined, the target portion is empty, a numeric
option fails to parse, an unrecognized option key is present, sample rate
or channels resolve non-positive, the sample encoding is not one of
f32le/s16le/s32le, or — the amendment — a plain recognized option key
(`sample_fmt`, `args`, `out_args`) appears with a blank value. On success
the returned spec\x27s sample format defaults to "f32le" and its
rate/channels equal the caller-supplied defaults when the respective keys
are absent from the query. -/
theorem parse_error_conditions (g : GuessFun) (device : String) (dsr dch : ℤ)
    (hnp : ∀ m, parse_ffmpeg_device g device dsr dch ≠ .pyError m) :
    ((∃ m, parse_ffmpeg_device g device dsr dch = .captureError m) ↔
      amendedFailureB g device dsr dch = true) ∧
    ∀ spec : FFmpegDeviceSpec,
      parse_ffmpeg_device g device dsr dch = .ok spec →
      ((∀ kv ∈ parse_qsl (effSplit g device).query, kv.1 ≠ "sample_fmt") →
        spec.sample_format = "f32le") ∧
      ((∀ kv ∈ parse_qsl (effSplit g device).query, kv.1 ≠ "sample_rate") →
        spec.sample_rate = dsr) ∧
      ((∀ kv ∈ parse_qsl (effSplit g device).query, kv.1 ≠ "channels") →
        spec.channels = dch) := by
  constructor
  · constructor
    · rintro ⟨m, h⟩
      exact parse_capture_implies_amended g device dsr dch m h
    · intro ha
      rcases hout : parse_ffmpeg_device g device dsr dch with spec | m | m
      · rw [parse_ok_implies_not_amended g device dsr dch spec hout] at ha
        cases ha
      · exact ⟨m, rfl⟩
      · exact absurd hout (hnp m)
  · intro spec hok
    simp only [parse_ffmpeg_device] at hok
    split at hok
    · cases hok
    · split at hok
      · cases hok
      · split at hok
        · cases hok
        · split at hok
          · cases hok
          · cases hok
          · rename_i st hpp
            split at hok
            · cases hok
            · split at hok
              · cases hok
              · split at hok
                · cases hok
                · rename_i chunk hchunk
                  split at hok
                  · cases hok
                  · obtain ⟨hr, hc, hf⟩ := processPairs_ok_state _ _ _ hpp
                    cases hok
                    have hr' : st.sample_rate
                        = resolvedRate (parse_qsl (effSplit g device).query) dsr := hr
                    have hc' : st.channels
                        = resolvedChannels (parse_qsl (effSplit g device).query) dch := hc
                    have hf' : st.sample_format
                        = resolvedFmtRaw (parse_qsl (effSplit g device).query) := hf
                    refine ⟨?_, ?_, ?_⟩
                    · intro hnone
                      show lowerStr st.sample_format = "f32le"
                      rw [hf']
                      simp only [resolvedFmtRaw]
                      rw [foldl_skip_of_no_key
                        (fun acc kv =>
                          if kv.1 = "sample_fmt" ∧ kv.2 ≠ "" then lowerStr kv.2 else acc)
                        (fun kv => kv.1 = "sample_fmt")
                        (fun acc kv hk => if_neg (fun hcon => hk hcon.1))
                        (parse_qsl (effSplit g device).query) "f32le"
                        (fun kv hkv => hnone kv hkv)]
                      decide
                    · intro hnone
                      show st.sample_rate = dsr
                      rw [hr']
                      simp only [resolvedRate]
                      exact foldl_skip_of_no_key
                        (fun acc kv =>
                          if kv.1 = "sample_rate" ∧ kv.2 ≠ "" then
                            (pythonInt kv.2).getD acc else acc)
                        (fun kv => kv.1 = "sample_rate")
                        (fun acc kv hk => if_neg (fun hcon => hk hcon.1))
                        (parse_qsl (effSplit g device).query) dsr
                        (fun kv hkv => hnone kv hkv)
                    · intro hnone
                      show st.channels = dch
                      rw [hc']
                      simp only [resolvedChannels]
                      exact foldl_skip_of_no_key
                        (fun acc kv =>
                          if kv.1 = "channels" ∧ kv.2 ≠ "" then
                            (pythonInt kv.2).getD acc else acc)
                        (fun kv => kv.1 = "channels")
                        (fun acc kv hk => if_neg (fun hcon => hk hcon.1))
                        (parse_qsl (effSplit g device).query) dch
                        (fun kv hkv => hnone kv hkv)

/-- Witness for `parse_error_conditions` at a concrete guesser, device
string, and defaults: the device carries an explicit scheme and a valid
sample_rate override, so the parse succeeds and neither failure condition
holds. -/
theorem parse_error_conditions_witness :
    (∀ m, parse_ffmpeg_device (fun _ => none) "pulse:dev?sample_rate=48000"
      16000 1 ≠ .pyError m) ∧
    (((∃ m, parse_ffmpeg_device (fun _ => none) "pulse:dev?sample_rate=48000"
        16000 1 = .captureError m) ↔
      amendedFailureB (fun _ => none) "pulse:dev?sample_rate=48000"
        16000 1 = true) ∧
    ∀ spec : FFmpegDeviceSpec,
      parse_ffmpeg_device (fun _ => none) "pulse:dev?sample_rate=48000"
        16000 1 = .ok spec →
      ((∀ kv ∈ parse_qsl (effSplit (fun _ => none)
          "pulse:dev?sample_rate=48000").query, kv.1 ≠ "sample_fmt") →
        spec.sample_format = "f32le") ∧
      ((∀ kv ∈ parse_qsl (effSplit (fun _ => none)
          "pulse:dev?sample_rate=48000").query, kv.1 ≠ "sample_rate") →
        spec.sample_rate = 16000) ∧
      ((∀ kv ∈ parse_qsl (effSplit (fun _ => none)
          "pulse:dev?sample_rate=48000").query, kv.1 ≠ "channels") →
        spec.channels = 1)) :=
  ⟨(fun m h => by cases h),
    parse_error_conditions (fun _ => none) "pulse:dev?sample_rate=48000"
      16000 1 (fun m h => by cases h)⟩

/-- C1 (code evaluated at the failing input): a mixdown-requested session with
a non-silent channel `microphone` (1600 frames) and a silent channel `system`
(0 frames) passes BOTH files to the mixer — the zero-frame channel is not
excluded, contradicting the spec invariant and the repository's own tests
(`test_orchestrator_skips_silent_sources_in_mix` expects only
`microphone.wav`, and `RecordingOutcome` has no `channel_metrics` field at
all). -/
theorem mixdown_includes_silent_channel :
    mixdownInputs true [⟨"microphone", 1600⟩, ⟨"system", 0⟩]
      = ["microphone", "system"] ∧
    (⟨"system", 0⟩ : ChannelOutcome).framesWritten = 0 := by
  exact ⟨rfl, rfl⟩

/-- C2 (code evaluated at the failing input): when `_resolve_binary` cannot
locate FFmpeg and a sounddevice capture is constructible, `create_capture`
returns the sounddevice capture — a silent fallback to a different backend
rather than a distinct `BinaryNotFound`-typed failure (the src
`ffmpeg_backend.py` does not even define `FFmpegBinaryNotFoundError`, and
`FFmpegCapture.start` raises the generic `CaptureError`).  The repository's
own test `test_create_capture_raises_when_ffmpeg_unavailable` expects the
hard failure instead. -/
theorem create_capture_silent_fallback :
    create_capture_ffmpeg none true = .sounddeviceCapture ∧
    create_capture_ffmpeg none false
      = .configurationError "FFmpeg binary not found" :=
  ⟨rfl, rfl⟩

end ADsum
